import Mathlib

/-! Verification of the analytics core of the aws-finops-dashboard
repository.

Amounts of money and CPU percentages are modelled as rationals (`ℚ`):
the Python source computes with IEEE floats, but every claim under study
is about which items appear in an output collection and about exact
arithmetic relations between inputs and outputs, so the exact-arithmetic
model is the faithful one (the spec itself states its sum property
"within floating-point tolerance").

External collaborators (boto3 sessions, the Cost Explorer gateway, the
scikit-learn IsolationForest model, the wall clock) are modelled as
explicit function parameters; everything else is translated directly
from the Python source, file by file.
-/

namespace AwsFinops

/-- Order-preserving additive accumulation: models a Python
`defaultdict(float)` update `d[k] += v` (Python dicts preserve insertion
order, so a new key is appended at the end). -/
def accumAdd : List (String × ℚ) → String → ℚ → List (String × ℚ)
  | [], k, v => [(k, v)]
  | (k0, v0) :: rest, k, v =>
    if k0 = k then (k0, v0 + v) :: rest else (k0, v0) :: accumAdd rest k v

/-- Association-list lookup, modelling a Python dict read. -/
def lookupQ : List (String × ℚ) → String → Option ℚ
  | [], _ => none
  | (k0, v0) :: rest, k => if k0 = k then some v0 else lookupQ rest k

/-- Insert into a list sorted descending by `key`, placing the new
element before later elements with an equal key (Python `list.sort` is
stable, and `sortDescBy` below feeds elements right to left). -/
def insertDescBy {α : Type} (key : α → ℚ) (x : α) : List α → List α
  | [] => [x]
  | y :: ys => if key x ≥ key y then x :: y :: ys else y :: insertDescBy key x ys

/-- Stable sort, descending by `key`: models Python
`list.sort(key=..., reverse=True)`. -/
def sortDescBy {α : Type} (key : α → ℚ) : List α → List α
  | [] => []
  | x :: xs => insertDescBy key x (sortDescBy key xs)

/-! Cost data aggregation (`profile_processor.py`).

The function `process_combined_profiles` merges the profiles that
resolved to one account.  The Cost Explorer fetch
`get_cost_data(session, ...)` is modelled by a function parameter
`fetch : String → Option CostData` (`none` models the call raising an
exception for that profile). -/

/-- The slice of the `CostData` TypedDict (`types.py` /
`cost_processor.get_cost_data`) that `process_combined_profiles` reads.
An entry of `costByService` is `none` when the Cost Explorer group lacks
a `Keys` or `Metrics` field, and `some (service, amount)` otherwise
(`service = group["Keys"][0]`,
`amount = float(group["Metrics"]["UnblendedCost"]["Amount"])`). -/
structure CostData where
  accountId : String
  currentMonth : ℚ
  lastMonth : ℚ
  costByService : List (Option (String × ℚ))
  budgets : List String
  currentPeriodName : String
  previousPeriodName : String
deriving Repr, DecidableEq

/-- The default `account_cost_data` literal built at the top of
`process_combined_profiles` (profile_processor.py lines 100-114), kept
when the Cost Explorer fetch raises. -/
def defaultCostData (accountId : String) : CostData :=
  { accountId := accountId
    currentMonth := 0
    lastMonth := 0
    costByService := []
    budgets := []
    currentPeriodName := "Current month"
    previousPeriodName := "Last month" }

/-- One step of the loop over
`account_cost_data["current_month_cost_by_service"]`
(profile_processor.py lines 129-134): a well-formed group whose amount
exceeds 0.001 is added into `combined_service_costs_dict`. -/
def accumStep (acc : List (String × ℚ)) (g : Option (String × ℚ)) :
    List (String × ℚ) :=
  match g with
  | some (s, a) => if a > 0.001 then accumAdd acc s a else acc
  | none => acc

/-- The whole loop building `combined_service_costs_dict`. -/
def accumGroups (groups : List (Option (String × ℚ))) : List (String × ℚ) :=
  groups.foldl accumStep []

/-- The slice of the `ProfileData` TypedDict returned by
`process_combined_profiles` that the claims mention. -/
structure ProfileData where
  profile : String
  accountId : String
  lastMonth : ℚ
  currentMonth : ℚ
  serviceCosts : List (String × ℚ)
  budgets : List String
  success : Bool
  error : Option String
deriving Repr, DecidableEq

/-- The separator of `", ".join(profiles)`. -/
def commaSep : String := ", "

/-- Model of `process_combined_profiles(account_id, profiles, ...)` from
`profile_processor.py` (the copy imported by `dashboard_runner.py`;
`main.py` holds a legacy duplicate).  Returns the profile data together
with the list of warnings logged to the console; returns `none` for an
empty profile list (Python raises `IndexError` on `profiles[0]`).

Only the first profile is ever passed to the cost fetch; the remaining
profiles are used solely for the display string `", ".join(profiles)`. -/
def processCombinedProfiles (fetch : String → Option CostData)
    (accountId : String) (profiles : List String) :
    Option (ProfileData × List String) :=
  match profiles with
  | [] => none
  | primary :: _ =>
    let fetched := fetch primary
    let cd := fetched.getD (defaultCostData accountId)
    let warnings : List String :=
      match fetched with
      | some _ => []
      | none => ["Error getting cost data for account " ++ accountId]
    let dict := accumGroups cd.costByService
    let serviceCostData :=
      sortDescBy (fun p => p.2) (dict.filter (fun p => p.2 > 0.001))
    some
      ({ profile := String.intercalate commaSep profiles
         accountId := accountId
         lastMonth := cd.lastMonth
         currentMonth := cd.currentMonth
         serviceCosts := serviceCostData
         budgets := cd.budgets
         success := true
         error := none }, warnings)

/-- Written from the spec sentence for claim C1 (the comparison side of
the refinement): the sum of `CostRecord.amount` for service `s` over the
well-formed groups of one profile's cost response, counting only amounts
above the 0.001 materiality threshold. -/
def primaryServiceTotal (cd : CostData) (s : String) : ℚ :=
  (cd.costByService.filterMap
    (fun g =>
      match g with
      | some (s0, a) => if s0 = s ∧ a > 0.001 then some a else none
      | none => none)).sum

/-- Same filtered sum, phrased over a raw group list. -/
def groupSum (gs : List (Option (String × ℚ))) (s : String) : ℚ :=
  (gs.filterMap
    (fun g =>
      match g with
      | some (s0, a) => if s0 = s ∧ a > 0.001 then some a else none
      | none => none)).sum

/-- Whether some well-formed group for service `s` clears the 0.001
threshold. -/
def hasGroup (gs : List (Option (String × ℚ))) (s : String) : Bool :=
  gs.any
    (fun g =>
      match g with
      | some (s0, a) => decide (s0 = s ∧ a > 0.001)
      | none => false)

/-! Concrete inputs used by counterexamples and witnesses for the
aggregation claims. -/

/-- The account id of the spec scenario for claim C1. -/
def acctIdEx : String := "111111111111"

/-- The profile name of the spec scenario ("dev"). -/
def devProfile : String := "dev"

/-- The profile name of the spec scenario ("ops"). -/
def opsProfile : String := "ops"

/-- Cost data of the "dev" profile in the spec scenario for C1:
a Compute cost of 5.00. -/
def devCostData : CostData :=
  { accountId := "111111111111"
    currentMonth := 5
    lastMonth := 0
    costByService := [some ("Compute", 5)]
    budgets := []
    currentPeriodName := "Current month"
    previousPeriodName := "Last month" }

/-- Cost data of the "ops" profile in the spec scenario for C1:
a Compute cost of 7.00. -/
def opsCostData : CostData :=
  { accountId := "111111111111"
    currentMonth := 7
    lastMonth := 0
    costByService := [some ("Compute", 7)]
    budgets := []
    currentPeriodName := "Current month"
    previousPeriodName := "Last month" }

/-- A gateway on which "dev" and "ops" both succeed, with the costs of
the spec scenario for C1. -/
def scenarioFetch : String → Option CostData := fun p =>
  if p = "dev" then some devCostData
  else if p = "ops" then some opsCostData
  else none

/-- A gateway on which every cost retrieval fails. -/
def failFetch : String → Option CostData := fun _ => none

/-- The service name of the spec scenario ("Compute"). -/
def computeSvc : String := "Compute"

/-- The profile data produced by `processCombinedProfiles` on the C1
scenario with "dev" first. -/
def c1PD : ProfileData :=
  { profile := String.intercalate commaSep [devProfile, opsProfile]
    accountId := acctIdEx
    lastMonth := 0
    currentMonth := 5
    serviceCosts := [("Compute", 5)]
    budgets := []
    success := true
    error := none }

/-- The profile data produced by `processCombinedProfiles` when the cost
fetch for the primary profile fails. -/
def c6PD : ProfileData :=
  { profile := String.intercalate commaSep [devProfile]
    accountId := acctIdEx
    lastMonth := 0
    currentMonth := 0
    serviceCosts := []
    budgets := []
    success := true
    error := none }

/-- The warning logged when the cost fetch for the account fails. -/
def c6Warnings : List String :=
  ["Error getting cost data for account " ++ acctIdEx]

/-! Anomaly detection (`anomaly_detection.py`).

The pandas rolling-feature construction and the scikit-learn
IsolationForest (anomaly_detection.py lines 81-96) are external
libraries; together they form the "outlier model" of the spec.  They
are modelled by a parameter `model : ℚ → List ℚ → List (Bool × ℚ)`
taking the contamination (sensitivity) parameter and the daily cost
series and returning, day by day, whether the day is flagged as an
outlier (`fit_predict == -1`) and its `decision_function` score.  The
repository code performs no validation of the sensitivity value: it is
handed to the model unchanged. -/

/-- The extraction loop over `anomaly_points`
(anomaly_detection.py lines 98-104): the flagged day indexes, each with
its cost and score. -/
def flaggedPoints : ℕ → List ℚ → List (Bool × ℚ) → List (ℕ × ℚ × ℚ)
  | _, [], _ => []
  | _, _ :: _, [] => []
  | i, c :: cs, (flag, score) :: ps =>
    if flag then (i, c, score) :: flaggedPoints (i + 1) cs ps
    else flaggedPoints (i + 1) cs ps

/-- Model of `detect_service_anomalies(historical_data, sensitivity)`:
series with fewer than 14 points are skipped, the outlier model is
applied to every other series (for any sensitivity value — there is no
validation), and a service is reported only when at least one day is
flagged. -/
def detectServiceAnomalies (model : ℚ → List ℚ → List (Bool × ℚ))
    (hist : List (String × List ℚ)) (sensitivity : ℚ) :
    List (String × List (ℕ × ℚ × ℚ)) :=
  hist.filterMap (fun entry =>
    if entry.2.length < 14 then none
    else
      let pts := flaggedPoints 0 entry.2 (model sensitivity entry.2)
      if pts = [] then none else some (entry.1, pts))

/-- Model of `calculate_deviation(amount, baseline)`. -/
def calculateDeviation (amount baseline : ℚ) : ℚ :=
  if baseline ≤ 0 then 0 else amount / baseline

/-- An anomaly record as assembled in `detect_anomalies`
(anomaly_detection.py lines 188-195).  The `date` string is derived
from the wall clock and `days_ago` and is not modelled separately. -/
structure AnomalyRecord where
  amount : ℚ
  baseline : ℚ
  deviation : ℚ
  score : ℚ
  daysAgo : ℕ
deriving Repr, DecidableEq

/-- Python `historical_data[service]` (service keys are dict keys, so
they are unique in any real input). -/
def lookupCosts : List (String × List ℚ) → String → List ℚ
  | [], _ => []
  | (s0, cs) :: rest, s => if s0 = s then cs else lookupCosts rest s

/-- The baseline of a service: the mean of its whole cost series, `0`
for an empty series (anomaly_detection.py line 175). -/
def seriesBaseline (hist : List (String × List ℚ)) (s : String) : ℚ :=
  let cs := lookupCosts hist s
  if cs.length = 0 then 0 else cs.sum / cs.length

/-- One processed record (anomaly_detection.py lines 179-195). -/
def mkAnomalyRecord (costs : List ℚ) (baseline : ℚ)
    (pt : ℕ × ℚ × ℚ) : AnomalyRecord :=
  { amount := pt.2.1
    baseline := baseline
    deviation := calculateDeviation pt.2.1 baseline
    score := pt.2.2
    daysAgo := costs.length - pt.1 - 1 }

/-- The processing loop of `detect_anomalies`
(anomaly_detection.py lines 169-196): every flagged point of every
reported service becomes a record, with the service's series mean as
baseline. -/
def processAnomalies (hist : List (String × List ℚ))
    (anoms : List (String × List (ℕ × ℚ × ℚ))) :
    List (String × List AnomalyRecord) :=
  anoms.map (fun sa =>
    (sa.1, sa.2.map (mkAnomalyRecord (lookupCosts hist sa.1)
      (seriesBaseline hist sa.1))))

/-- The full anomaly pipeline on already-collected historical data. -/
def detectAnomalies (model : ℚ → List ℚ → List (Bool × ℚ))
    (hist : List (String × List ℚ)) (sensitivity : ℚ) :
    List (String × List AnomalyRecord) :=
  processAnomalies hist (detectServiceAnomalies model hist sensitivity)

/-! Concrete inputs for the anomaly-detection claims. -/

/-- A 14-day series summing to zero: the baseline is 0 although the
series is not constant. -/
def zeroSumCosts : List ℚ :=
  [5, -5, 0, 0, 0, 0, 0, 0, 0, 0, 0, 0, 0, 0]

/-- The service name used in the anomaly counterexamples. -/
def svcS3 : String := "S3"

/-- Historical data with the zero-sum series. -/
def zeroSumHist : List (String × List ℚ) := [("S3", zeroSumCosts)]

/-- A deterministic outlier model flagging every day whose cost exceeds
4, ignoring the sensitivity (a stand-in instantiation of the abstract
IsolationForest parameter). -/
def spikeModel : ℚ → List ℚ → List (Bool × ℚ) :=
  fun _ costs => costs.map (fun c => (decide (4 < c), 0))

/-- The record the pipeline materializes on `zeroSumHist`. -/
def zeroBaselineRecord : AnomalyRecord :=
  { amount := 5, baseline := 0, deviation := 0, score := 0, daysAgo := 13 }

/-- The flagged point of day 0 on `zeroSumHist`. -/
def zeroSumPoint : ℕ × ℚ × ℚ := (0, 5, 0)

/-- The service name used in the short-series witness. -/
def svcLambda : String := "Lambda"

/-- Historical data containing only a 3-day series. -/
def shortHist : List (String × List ℚ) := [("Lambda", [1, 2, 3])]

/-! Right-sizing recommendations
(`optimization_recommendations.py`). -/

/-- Generic association-list lookup, modelling Python `dict.get`. -/
def lookupA {α : Type} : List (String × α) → String → Option α
  | [], _ => none
  | (k0, v) :: rest, k => if k0 = k then some v else lookupA rest k

/-- `INSTANCE_FAMILIES` (optimization_recommendations.py lines 27-33). -/
def INSTANCE_FAMILIES : List (String × List String) :=
  [("t2", ["t2.nano", "t2.micro", "t2.small", "t2.medium", "t2.large",
           "t2.xlarge", "t2.2xlarge"]),
   ("t3", ["t3.nano", "t3.micro", "t3.small", "t3.medium", "t3.large",
           "t3.xlarge", "t3.2xlarge"]),
   ("m5", ["m5.large", "m5.xlarge", "m5.2xlarge", "m5.4xlarge",
           "m5.8xlarge", "m5.12xlarge", "m5.16xlarge", "m5.24xlarge"]),
   ("c5", ["c5.large", "c5.xlarge", "c5.2xlarge", "c5.4xlarge",
           "c5.9xlarge", "c5.12xlarge", "c5.18xlarge", "c5.24xlarge"]),
   ("r5", ["r5.large", "r5.xlarge", "r5.2xlarge", "r5.4xlarge",
           "r5.8xlarge", "r5.12xlarge", "r5.16xlarge", "r5.24xlarge"])]

/-- `INSTANCE_PRICING` (optimization_recommendations.py lines 36-49):
hourly on-demand rates; note the m5/c5/r5 families only list the three
smallest sizes. -/
def INSTANCE_PRICING : List (String × ℚ) :=
  [("t2.nano", 0.0058), ("t2.micro", 0.0116), ("t2.small", 0.023),
   ("t2.medium", 0.0464), ("t2.large", 0.0928), ("t2.xlarge", 0.1856),
   ("t2.2xlarge", 0.3712),
   ("t3.nano", 0.0052), ("t3.micro", 0.0104), ("t3.small", 0.0208),
   ("t3.medium", 0.0416), ("t3.large", 0.0832), ("t3.xlarge", 0.1664),
   ("t3.2xlarge", 0.3328),
   ("m5.large", 0.096), ("m5.xlarge", 0.192), ("m5.2xlarge", 0.384),
   ("c5.large", 0.085), ("c5.xlarge", 0.17), ("c5.2xlarge", 0.34),
   ("r5.large", 0.126), ("r5.xlarge", 0.252), ("r5.2xlarge", 0.504)]

/-- `get_instance_pricing`: table lookup with default 0.0. -/
def getInstancePricing (t : String) : ℚ :=
  (lookupA INSTANCE_PRICING t).getD 0

/-- Characters after the first occurrence of `stop`
(the tail of Python `s.split(stop)[0:2]`). -/
def dropThroughFirst (stop : Char) : List Char → List Char
  | [] => []
  | c :: cs => if c = stop then cs else dropThroughFirst stop cs

/-- The prefix up to the first character from `stops`. -/
def takeUntil (stops : List Char) : List Char → List Char
  | [] => []
  | c :: cs => if c ∈ stops then [] else c :: takeUntil stops cs

/-- Python `s.split(sep)` for a one-character separator, over the
character list of the string. -/
def splitChar (sep : Char) : List Char → List (List Char)
  | [] => [[]]
  | c :: cs =>
    if c = sep then [] :: splitChar sep cs
    else
      match splitChar sep cs with
      | [] => [[c]]
      | seg :: rest => (c :: seg) :: rest

/-- Python `instance_type.split(".")` (the separator is the single
character, as in the source). -/
def splitDot (s : String) : List String :=
  (splitChar (Char.ofNat 46) s.toList).map String.mk

/-- Python `list.index(x)` wrapped in try/except (`none` models the
`ValueError`). -/
def listIndex {α : Type} [DecidableEq α] (x : α) : List α → Option ℕ
  | [] => none
  | y :: ys => if y = x then some 0 else (listIndex x ys).map (· + 1)

/-- `get_smaller_instance(instance_type)`
(optimization_recommendations.py lines 57-85). -/
def getSmallerInstance (instanceType : String) : Option String :=
  let parts := splitDot instanceType
  if parts.length ≠ 2 then none
  else
    match lookupA INSTANCE_FAMILIES (parts.headD "") with
    | none => none
    | some instances =>
      match listIndex instanceType instances with
      | none => none
      | some idx => if idx > 0 then instances.get? (idx - 1) else none

/-- The tag scan `for tag in tags: if tag["Key"] == "Name"` with a
default for unnamed resources. -/
def nameFromTags (dflt : String) : List (String × String) → String
  | [] => dflt
  | (k, v) :: rest => if k = "Name" then v else nameFromTags dflt rest

/-- A running instance as consumed by `analyze_ec2_right_sizing`:
identity and type plus its CloudWatch CPU datapoints, each an
(Average, Maximum) pair; a metric-retrieval failure is modelled by an
empty datapoint list (both are skipped identically by the source). -/
structure EC2Instance where
  instanceId : String
  tags : List (String × String)
  region : String
  instanceType : String
  datapoints : List (ℚ × ℚ)
deriving Repr, DecidableEq

/-- Average CPU over the window (`sum(...)/len(...)`,
optimization_recommendations.py line 158). -/
def avgCpuOf (dps : List (ℚ × ℚ)) : ℚ :=
  (dps.map Prod.fst).sum / dps.length

/-- Maximum CPU over the window (`max(...)` of a nonempty list, `0`
otherwise, line 159). -/
def maxCpuOf : List (ℚ × ℚ) → ℚ
  | [] => 0
  | d :: rest => rest.foldl (fun m x => max m x.2) d.2

/-- An `EC2Recommendation` record (the `reason` display string, which
only formats the two CPU figures, is not modelled). -/
structure EC2Rec where
  resourceId : String
  resourceName : String
  region : String
  currentType : String
  recommendedType : String
  savings : ℚ
  avgCpu : ℚ
  maxCpu : ℚ
  datapointCount : ℕ
deriving Repr, DecidableEq

/-- The recommendation appended at
optimization_recommendations.py lines 174-187. -/
def mkEC2Rec (inst : EC2Instance) (smaller : String) : EC2Rec :=
  { resourceId := inst.instanceId
    resourceName := nameFromTags "" inst.tags
    region := inst.region
    currentType := inst.instanceType
    recommendedType := smaller
    savings := getInstancePricing inst.instanceType * 24 * 30
      - getInstancePricing smaller * 24 * 30
    avgCpu := avgCpuOf inst.datapoints
    maxCpu := maxCpuOf inst.datapoints
    datapointCount := inst.datapoints.length }

/-- The pure per-instance logic of `analyze_ec2_right_sizing`
(optimization_recommendations.py lines 127-195) over the running
instances gathered from all analyzed regions, followed by the final
descending sort by savings. -/
def analyzeEC2RightSizing (cpuThreshold : ℚ)
    (instances : List EC2Instance) : List EC2Rec :=
  sortDescBy (fun r => r.savings)
    (instances.filterMap (fun inst =>
      match getSmallerInstance inst.instanceType with
      | none => none
      | some smaller =>
        if inst.datapoints = [] then none
        else if avgCpuOf inst.datapoints < cpuThreshold
            ∧ maxCpuOf inst.datapoints < 80
        then some (mkEC2Rec inst smaller)
        else none))

/-! Unused-resource recommendations
(`optimization_recommendations.py`, `analyze_unused_resources`). -/

/-- An EBS volume (id, size in GB, type). -/
structure Volume where
  volumeId : String
  size : ℕ
  volumeType : String
deriving Repr, DecidableEq

/-- An Elastic IP address; `hasAssoc` models the presence of the
`AssociationId` key. -/
structure Address where
  allocationId : String
  publicIp : String
  hasAssoc : Bool
deriving Repr, DecidableEq

/-- A stopped instance as consumed by `analyze_unused_resources`; an
attached-volume entry is `none` when the block-device mapping lacks an
EBS volume id or the volume lookup raises (both contribute nothing). -/
structure StoppedInstance where
  instanceId : String
  tags : List (String × String)
  instanceType : String
  attachedVolumes : List (Option Volume)
deriving Repr, DecidableEq

/-- The per-volume monthly cost used in `analyze_unused_resources`
(lines 238-244 and 305-311): gp2/gp3/io1 only, 0 otherwise, no
regional adjustment. -/
def volumeMonthlyCost (v : Volume) : ℚ :=
  if v.volumeType = "gp2" then v.size * 0.10
  else if v.volumeType = "gp3" then v.size * 0.08
  else if v.volumeType = "io1" then v.size * 0.125
  else 0

/-- A `ResourceRecommendation` record (the `recommendation` and
`reason` display strings are not modelled). -/
structure ResourceRec where
  resourceId : String
  resourceName : String
  resourceType : String
  region : String
  savings : ℚ
deriving Repr, DecidableEq

/-- The pure logic of `analyze_unused_resources`
(optimization_recommendations.py lines 223-331) for one region:
available volumes (any type, cost possibly 0), unassociated addresses
(flat 3.6), and stopped instances kept only when their attached-volume
cost is positive, then the final descending sort by savings. -/
def analyzeUnusedResources (region : String) (volumes : List Volume)
    (addresses : List Address) (stopped : List StoppedInstance) :
    List ResourceRec :=
  sortDescBy (fun r => r.savings)
    ((volumes.map (fun v =>
        { resourceId := v.volumeId
          resourceName := ""
          resourceType := "EBS Volume"
          region := region
          savings := volumeMonthlyCost v }))
      ++ ((addresses.filter (fun a => ¬a.hasAssoc)).map (fun a =>
        { resourceId := a.allocationId
          resourceName := a.publicIp
          resourceType := "Elastic IP"
          region := region
          savings := 3.6 }))
      ++ (stopped.filterMap (fun inst =>
        let volumesCost :=
          ((inst.attachedVolumes.filterMap id).map volumeMonthlyCost).sum
        if volumesCost > 0 then
          some { resourceId := inst.instanceId
                 resourceName := nameFromTags "" inst.tags
                 resourceType := "EC2 Instance"
                 region := region
                 savings := volumesCost }
        else none)))

/-! Unused-resource analyzer (`resource_analyzer.py`).

The wall clock enters through
`(datetime.now() - stopped_date).days`; the composite of
`datetime.strptime` and that subtraction is modelled by a parameter
`clock : String → Option ℤ` (`none` models a `strptime` failure, which
the source catches and replaces by the lookback default). -/

/-- The pricing table shared (as an identical literal) by
`resource_analyzer._estimate_ec2_monthly_cost` and
`ri_optimizer._get_ec2_hourly_rate`. -/
def ec2BasePrices : List (String × ℚ) :=
  [("t2.micro", 0.0116), ("t2.small", 0.023), ("t2.medium", 0.0464),
   ("t2.large", 0.0928),
   ("t3.micro", 0.0104), ("t3.small", 0.0208), ("t3.medium", 0.0416),
   ("m5.large", 0.096), ("m5.xlarge", 0.192), ("m5.2xlarge", 0.384),
   ("c5.large", 0.085), ("c5.xlarge", 0.17),
   ("r5.large", 0.126), ("r5.xlarge", 0.252)]

/-- The regional multiplier table shared (as an identical literal) by
`resource_analyzer.py` and `ri_optimizer.py`. -/
def regionMultipliers : List (String × ℚ) :=
  [("us-east-1", 1.0), ("us-east-2", 1.0), ("us-west-1", 1.1),
   ("us-west-2", 1.0), ("eu-west-1", 1.05), ("eu-central-1", 1.15),
   ("ap-northeast-1", 1.15), ("ap-southeast-1", 1.1),
   ("ap-southeast-2", 1.15), ("ap-south-1", 1.1)]

/-- `UnusedResourceAnalyzer._estimate_ec2_monthly_cost`: the instance
type's hourly compute rate (default 0.1) times the regional multiplier
(default 1.0) times 24 times 30. -/
def estimateEC2MonthlyCost (instanceType region : String) : ℚ :=
  (lookupA ec2BasePrices instanceType).getD 0.1
    * (lookupA regionMultipliers region).getD 1.0 * 24 * 30

/-- `UnusedResourceAnalyzer._estimate_ebs_monthly_cost`: per-GB-month
rate by volume type (default 0.1) times the regional multiplier times
the size. -/
def ebsBasePrices : List (String × ℚ) :=
  [("gp2", 0.10), ("gp3", 0.08), ("io1", 0.125), ("io2", 0.125),
   ("st1", 0.045), ("sc1", 0.025), ("standard", 0.05)]

/-- The EBS monthly cost of `_estimate_ebs_monthly_cost`. -/
def estimateEBSMonthlyCost (sizeGB : ℕ) (volumeType region : String) : ℚ :=
  (lookupA ebsBasePrices volumeType).getD 0.1
    * (lookupA regionMultipliers region).getD 1.0 * sizeGB

/-- Python `s.split('(')[1].split(')')[0]` guarded by
`'(' in s and ')' in s` (resource_analyzer.py lines 77-78). -/
def extractParen (s : String) : Option String :=
  if (Char.ofNat 40) ∈ s.toList ∧ (Char.ofNat 41) ∈ s.toList then
    some (String.mk (takeUntil [Char.ofNat 40, Char.ofNat 41]
      (dropThroughFirst (Char.ofNat 40) s.toList)))
  else none

/-- An instance in the inventory scanned by
`UnusedResourceAnalyzer.analyze_ec2_instances`.  The attached storage
is part of the inventory (and of the spec's description) but is never
read by this code path; `cpuDatapoints` are the daily CPU averages of
a running instance. -/
structure RAInstance where
  instanceId : String
  tags : List (String × String)
  state : String
  stateTransitionReason : String
  instanceType : String
  attachedStorage : List Volume
  cpuDatapoints : List ℚ
deriving Repr, DecidableEq

/-- An entry of the unused-resource report (the `recommendation` and
`last_used` display strings are not modelled; `last_used` is derived
from the wall clock). -/
structure UnusedEntry where
  resourceId : String
  resourceType : String
  name : String
  region : String
  state : String
  daysUnused : ℤ
  estimatedMonthlyCost : ℚ
deriving Repr, DecidableEq

/-- The stopped-instance entry (resource_analyzer.py lines 72-103):
days stopped from the parenthesized state-transition date when the
clock can interpret it, the lookback default otherwise, and the
monthly cost from the instance's *compute* hourly rate. -/
def mkStoppedEntry (clock : String → Option ℤ) (lookback : ℤ)
    (region : String) (inst : RAInstance) : UnusedEntry :=
  { resourceId := inst.instanceId
    resourceType := "EC2 Instance"
    name := nameFromTags "Unnamed" inst.tags
    region := region
    state := "stopped"
    daysUnused :=
      match extractParen inst.stateTransitionReason with
      | some ds => (clock ds).getD lookback
      | none => lookback
    estimatedMonthlyCost := estimateEC2MonthlyCost inst.instanceType region }

/-- The underutilized-running-instance entry
(resource_analyzer.py lines 107-145). -/
def mkUnderutilizedEntry (lookback : ℤ) (region : String)
    (inst : RAInstance) : UnusedEntry :=
  { resourceId := inst.instanceId
    resourceType := "EC2 Instance"
    name := nameFromTags "Unnamed" inst.tags
    region := region
    state := "underutilized"
    daysUnused := lookback
    estimatedMonthlyCost := estimateEC2MonthlyCost inst.instanceType region }

/-- The per-instance logic of
`UnusedResourceAnalyzer.analyze_ec2_instances` for one region:
terminated instances are skipped, stopped instances are always flagged,
running instances are flagged when they have datapoints and their
average CPU is below 5%. -/
def analyzeEC2InstancesRA (clock : String → Option ℤ) (lookback : ℤ)
    (region : String) (instances : List RAInstance) : List UnusedEntry :=
  instances.filterMap (fun inst =>
    if inst.state = "terminated" then none
    else if inst.state = "stopped" then
      some (mkStoppedEntry clock lookback region inst)
    else if inst.state = "running" then
      if inst.cpuDatapoints ≠ []
          ∧ inst.cpuDatapoints.sum / inst.cpuDatapoints.length < 5
      then some (mkUnderutilizedEntry lookback region inst)
      else none
    else none)

/-- Written from the spec sentence for claim C5 (the comparison side):
the attached-storage monthly cost of an instance, from the per-GB-month
rate table with regional multipliers. -/
def specAttachedStorageCost (region : String) (inst : RAInstance) : ℚ :=
  (inst.attachedStorage.map
    (fun v => estimateEBSMonthlyCost v.size v.volumeType region)).sum

/-! Reserved-Instance and Savings-Plan optimizer (`ri_optimizer.py`).

The Cost Explorer usage response is modelled as a list of time periods,
each a list of groups `(instance type, region, usage quantity)`; the
whole `analyze_usage_patterns` fetch is an `Option` of the (EC2, RDS)
pair of such lists, `none` modelling the exception branch that returns
`{}`.  The standard deviation of the source is compared through its
square: for nonnegative `std` and positive threshold `c·mean`,
`std < c·mean ↔ std² < c²·mean²`, so the square-root of
`ri_optimizer.py` line 184 is eliminated exactly. -/

/-- The per-key accumulator of `_extract_consistent_usage`
(ri_optimizer.py lines 156-169). -/
structure UsageAcc where
  instanceType : String
  region : String
  service : String
  daysUsed : ℕ
  total : ℚ
  daily : List ℚ
deriving Repr, DecidableEq

/-- The dict key `f"{instance_type}:{region}"`. -/
def usageKey (it reg : String) : String := it ++ ":" ++ reg

/-- One `instance_usage` update (insertion-ordered dict). -/
def addUsage (service : String) (l : List (String × UsageAcc))
    (it reg : String) (qty : ℚ) : List (String × UsageAcc) :=
  match l with
  | [] => [(usageKey it reg,
      { instanceType := it, region := reg, service := service,
        daysUsed := 1, total := qty, daily := [qty] })]
  | (k, acc) :: rest =>
    if k = usageKey it reg then
      (k, { acc with
              daysUsed := acc.daysUsed + 1
              total := acc.total + qty
              daily := acc.daily ++ [qty] }) :: rest
    else (k, acc) :: addUsage service rest it reg qty

/-- The double loop over `ResultsByTime` and `Groups`, counting only
positive usage quantities (ri_optimizer.py lines 147-169). -/
def accumUsage (service : String)
    (usage : List (List (String × String × ℚ))) :
    List (String × UsageAcc) :=
  usage.foldl (fun acc period =>
    period.foldl (fun acc2 g =>
      if g.2.2 > 0 then addUsage service acc2 g.1 g.2.1 g.2.2 else acc2)
      acc) []

/-- A consistent-usage pattern (ri_optimizer.py lines 191-201). -/
structure UsagePattern where
  instanceType : String
  region : String
  service : String
  consistency : ℚ
  avgDailyUsage : ℚ
  stability : String
  totalHours : ℤ
  confidence : String
deriving Repr, DecidableEq

/-- The comparison `cv < c` of the source, squared to stay inside ℚ:
for a single sample the source sets `cv = 0`; for a nonpositive mean it
sets `cv = inf` (never below a positive threshold); otherwise
`cv = √variance / mean < c ↔ variance < c²·mean²`. -/
def cvLt (daily : List ℚ) (c : ℚ) : Bool :=
  if daily.length ≤ 1 then decide (0 < c)
  else
    let mean := daily.sum / daily.length
    if 0 < mean then
      decide ((daily.map (fun x => (x - mean) ^ 2)).sum / daily.length
        < c ^ 2 * mean ^ 2)
    else false

/-- The pattern built for a key that passed the 0.7 consistency gate
(ri_optimizer.py lines 191-201).  `total_hours = int(total)` and the
truncation coincides with the floor because only positive quantities
are accumulated. -/
def mkUsagePattern (lookback : ℕ) (acc : UsageAcc) : UsagePattern :=
  { instanceType := acc.instanceType
    region := acc.region
    service := acc.service
    consistency := (acc.daysUsed : ℚ) / lookback
    avgDailyUsage := acc.total / acc.daysUsed
    stability :=
      if cvLt acc.daily 0.1 = true then "High"
      else if cvLt acc.daily 0.3 = true then "Medium" else "Low"
    totalHours := ⌊acc.total⌋
    confidence :=
      if (acc.daysUsed : ℚ) / lookback > 0.9 ∧ cvLt acc.daily 0.1 = true
      then "High"
      else if (acc.daysUsed : ℚ) / lookback > 0.8
          ∧ cvLt acc.daily 0.2 = true
      then "Medium" else "Low" }

/-- Model of `_extract_consistent_usage(usage_data, service)`:
only keys with consistency ≥ 0.7, sorted by total hours descending. -/
def extractConsistentUsage (lookback : ℕ) (service : String)
    (usage : List (List (String × String × ℚ))) : List UsagePattern :=
  sortDescBy (fun p => (p.totalHours : ℚ))
    ((accumUsage service usage).filterMap (fun ka =>
      if (ka.2.daysUsed : ℚ) / lookback ≥ 0.7 then
        some (mkUsagePattern lookback ka.2)
      else none))

/-- A Reserved-Instance recommendation (ri_optimizer.py lines 280-291;
the constant `commitment_term`, `payment_option`, `current_usage` and
`utilization_projection` display fields are not modelled). -/
structure RIRec where
  service : String
  instanceType : String
  region : String
  recommendedCount : ℤ
  monthlySavings : ℚ
  confidence : String
deriving Repr, DecidableEq

/-- `_get_ec2_hourly_rate` (default 0.1, regional multiplier default
1.0). -/
def ec2HourlyRate (instanceType region : String) : ℚ :=
  (lookupA ec2BasePrices instanceType).getD 0.1
    * (lookupA regionMultipliers region).getD 1.0

/-- The RDS pricing table of `_get_rds_hourly_rate`. -/
def rdsBasePrices : List (String × ℚ) :=
  [("db.t2.micro", 0.017), ("db.t2.small", 0.034),
   ("db.t2.medium", 0.068), ("db.t3.micro", 0.016),
   ("db.t3.small", 0.032), ("db.t3.medium", 0.064),
   ("db.m5.large", 0.171), ("db.m5.xlarge", 0.342),
   ("db.r5.large", 0.226), ("db.r5.xlarge", 0.452)]

/-- `_get_rds_hourly_rate` (default 0.15). -/
def rdsHourlyRate (instanceType region : String) : ℚ :=
  (lookupA rdsBasePrices instanceType).getD 0.15
    * (lookupA regionMultipliers region).getD 1.0

/-- The service label "EC2". -/
def svcEC2 : String := "EC2"

/-- The service label "RDS". -/
def svcRDS : String := "RDS"

/-- The recommendation record of `_generate_ec2_ri_recommendations`
(ri_optimizer.py lines 264-291): the count is the truncated
`avg_daily_usage / 24` (the average is positive in every reachable
pattern, so the truncation is the floor) and the savings assume a 40%
RI discount. -/
def mkEC2RIRec (pat : UsagePattern) : RIRec :=
  let cnt : ℤ := ⌊pat.avgDailyUsage / 24⌋
  let rate := ec2HourlyRate pat.instanceType pat.region
  let riRate := rate * 0.6
  { service := svcEC2
    instanceType := pat.instanceType
    region := pat.region
    recommendedCount := cnt
    monthlySavings := (rate - riRate) * cnt * 24 * 30
    confidence := pat.confidence }

/-- The filterMap body of `_generate_ec2_ri_recommendations`. -/
def generateEC2RIRecs (patterns : List UsagePattern) : List RIRec :=
  patterns.filterMap (fun pat =>
    if pat.confidence = "Low" then none
    else if ⌊pat.avgDailyUsage / 24⌋ < 1 then none
    else some (mkEC2RIRec pat))

/-- The recommendation record of `_generate_rds_ri_recommendations`
(ri_optimizer.py lines 315-338): as for EC2 but with the RDS rates and
a 45% discount. -/
def mkRDSRIRec (pat : UsagePattern) : RIRec :=
  let cnt : ℤ := ⌊pat.avgDailyUsage / 24⌋
  let rate := rdsHourlyRate pat.instanceType pat.region
  let riRate := rate * 0.55
  { service := svcRDS
    instanceType := pat.instanceType
    region := pat.region
    recommendedCount := cnt
    monthlySavings := (rate - riRate) * cnt * 24 * 30
    confidence := pat.confidence }

/-- `_generate_rds_ri_recommendations` (ri_optimizer.py lines
295-340): Low-confidence patterns are skipped and counts below one
whole instance are dropped. -/
def generateRDSRIRecs (patterns : List UsagePattern) : List RIRec :=
  patterns.filterMap (fun pat =>
    if pat.confidence = "Low" then none
    else if ⌊pat.avgDailyUsage / 24⌋ < 1 then none
    else some (mkRDSRIRec pat))

/-- The result of `get_ri_recommendations` (the `analysis_period`
display block is not modelled). -/
structure RIResult where
  recommendations : List RIRec
  estimatedSavings : ℚ
  confidence : String
deriving Repr, DecidableEq

/-- Model of `RIOptimizer.get_ri_recommendations`
(ri_optimizer.py lines 206-242): a failed usage-pattern analysis
(`analysis = none`) yields the empty result with confidence "Low";
otherwise EC2 and RDS recommendations are generated and the batch
confidence is "High" when every recommendation is "High" (vacuously so
for an empty list), else "Medium" when one is "Medium", else "Low". -/
def getRIRecommendations (lookback : ℕ)
    (analysis : Option (List (List (String × String × ℚ))
      × List (List (String × String × ℚ)))) : RIResult :=
  match analysis with
  | none => { recommendations := [], estimatedSavings := 0,
              confidence := "Low" }
  | some (ec2Usage, rdsUsage) =>
    let allRecs :=
      generateEC2RIRecs (extractConsistentUsage lookback svcEC2 ec2Usage)
        ++ generateRDSRIRecs
          (extractConsistentUsage lookback svcRDS rdsUsage)
    { recommendations := allRecs
      estimatedSavings := (allRecs.map (fun r => r.monthlySavings)).sum
      confidence :=
        if allRecs.all (fun r => decide (r.confidence = "High")) then
          "High"
        else if allRecs.any (fun r => decide (r.confidence = "Medium"))
        then "Medium"
        else "Low" }

/-- A Savings-Plan recommendation (ri_optimizer.py lines 472-481; the
constant `term` and `payment_option` fields are not modelled, the
utilization is kept as a number). -/
structure SPRec where
  planType : String
  hourlyCommitment : ℚ
  monthlyCommitment : ℚ
  estimatedMonthlySavings : ℚ
  estimatedUtilization : ℚ
  confidence : String
deriving Repr, DecidableEq

/-- The provider-API branch of `get_savings_plan_recommendations`
(lines 462-491): each detail `(hourly commitment, estimated savings,
estimated utilization)` becomes a recommendation with confidence
"High" above 90% utilization and "Medium" otherwise; the total is the
sum of the savings. -/
def processSPApiDetails (details : List (ℚ × ℚ × ℚ)) :
    List SPRec × ℚ :=
  (details.map (fun d =>
    { planType := "Compute Savings Plan"
      hourlyCommitment := d.1
      monthlyCommitment := d.1 * 24 * 30
      estimatedMonthlySavings := d.2.1
      estimatedUtilization := d.2.2
      confidence := if d.2.2 > (90 : ℚ) then "High" else "Medium" }),
   (details.map (fun d => d.2.1)).sum)

/-- The heuristic fallback `_generate_estimated_savings_plans`
(lines 498-553): 70% of the consistent EC2 hourly usage at an assumed
25% savings ratio, emitted with confidence "Medium" when the
commitment is positive. -/
def generateEstimatedSavingsPlans (lookback : ℕ)
    (analysis : Option (List (List (String × String × ℚ))
      × List (List (String × String × ℚ)))) : List SPRec × ℚ :=
  match analysis with
  | none => ([], 0)
  | some (ec2Usage, _) =>
    let pats := extractConsistentUsage lookback svcEC2 ec2Usage
    let hours : ℤ :=
      ((pats.filter (fun p => decide (¬p.confidence = "Low"))).map
        (fun p => p.totalHours)).sum
    let avgHourly : ℚ := (hours : ℚ) / ((lookback : ℚ) * 24)
    let commitment := avgHourly * 0.7
    let monthlySavings := commitment * 0.25 * 24 * 30
    (if commitment > 0 then
      [{ planType := "Compute Savings Plan"
         hourlyCommitment := commitment
         monthlyCommitment := commitment * 24 * 30
         estimatedMonthlySavings := monthlySavings
         estimatedUtilization := 90
         confidence := "Medium" }]
     else [], monthlySavings)

/-- Model of `get_savings_plan_recommendations`: the provider API
result is used when available, the heuristic otherwise. -/
def getSavingsPlanRecommendations (lookback : ℕ)
    (api : Option (List (ℚ × ℚ × ℚ)))
    (analysis : Option (List (List (String × String × ℚ))
      × List (List (String × String × ℚ)))) : List SPRec × ℚ :=
  match api with
  | some details => processSPApiDetails details
  | none => generateEstimatedSavingsPlans lookback analysis

/-! Concrete inputs for the remaining claims. -/

/-- The region of the witnesses. -/
def usEast1 : String := "us-east-1"

/-- The instance of the spec scenario for C7: a t3.large with low CPU
(average 8%, maximum 35%). -/
def t3Inst : EC2Instance :=
  { instanceId := "i-07large"
    tags := []
    region := "us-east-1"
    instanceType := "t3.large"
    datapoints := [(8, 35)] }

/-- The type one step below t3.large. -/
def t3MediumStr : String := "t3.medium"

/-- A low-CPU m5.4xlarge: its type is missing from
`INSTANCE_PRICING`, so its hourly rate defaults to 0 and the computed
savings are negative. -/
def m54xInst : EC2Instance :=
  { instanceId := "i-02m54x"
    tags := []
    region := "us-east-1"
    instanceType := "m5.4xlarge"
    datapoints := [(10, 50)] }

/-- A stopped t2.micro with an 8 GB gp2 volume attached, used for C5. -/
def stoppedMicro : RAInstance :=
  { instanceId := "i-05micro"
    tags := []
    state := "stopped"
    stateTransitionReason := ""
    instanceType := "t2.micro"
    attachedStorage := [{ volumeId := "vol-1"
                          size := 8
                          volumeType := "gp2" }]
    cpuDatapoints := [] }

/-- A clock on which every date parse fails. -/
def noClock : String → Option ℤ := fun _ => none

/-- One-day usage response: 30 hours of m5.large in us-east-1
(consistency 1, a single sample, so cv = 0 and confidence High;
count = floor(30/24) = 1). -/
def steadyUsage : List (List (String × String × ℚ)) :=
  [[("m5.large", "us-east-1", 30)]]

/-- One-day usage response with too little usage for a whole instance:
5 hours of t2.nano (count = floor(5/24) = 0, dropped). -/
def tinyUsage : List (List (String × String × ℚ)) :=
  [[("t2.nano", "us-east-1", 5)]]

/-- A provider-API savings-plan detail: commitment 1 $/h, savings 100,
utilization 95%. -/
def spApiDetails : List (ℚ × ℚ × ℚ) := [(1, 100, 95)]

/-- The usage pattern extracted from `steadyUsage` with lookback 1. -/
def steadyPattern : UsagePattern :=
  { instanceType := "m5.large"
    region := "us-east-1"
    service := "EC2"
    consistency := 1
    avgDailyUsage := 30
    stability := "High"
    totalHours := 30
    confidence := "High" }

/-- An RDS usage pattern analogous to `steadyPattern`. -/
def steadyRDSPattern : UsagePattern :=
  { instanceType := "db.m5.large"
    region := "us-east-1"
    service := "RDS"
    consistency := 1
    avgDailyUsage := 30
    stability := "High"
    totalHours := 30
    confidence := "High" }

/-- The savings-plan recommendation produced from `spApiDetails`. -/
def spRecEx : SPRec :=
  { planType := "Compute Savings Plan"
    hourlyCommitment := 1
    monthlyCommitment := 720
    estimatedMonthlySavings := 100
    estimatedUtilization := 95
    confidence := "High" }

/-- An unassociated Elastic IP. -/
def unassocAddr : Address :=
  { allocationId := "eipalloc-1"
    publicIp := "203.0.113.7"
    hasAssoc := false }

/-- The recommendation emitted for `unassocAddr`. -/
def eipRec : ResourceRec :=
  { resourceId := "eipalloc-1"
    resourceName := "203.0.113.7"
    resourceType := "Elastic IP"
    region := "us-east-1"
    savings := 3.6 }

end AwsFinops

namespace AwsFinops

/-! Helper lemmas about the list machinery. -/

theorem mem_insertDescBy {α : Type} (key : α → ℚ) (x y : α) (l : List α) :
    y ∈ insertDescBy key x l ↔ y = x ∨ y ∈ l := by
  induction l with
  | nil => simp [insertDescBy]
  | cons z zs ih =>
    simp only [insertDescBy]
    split
    · simp [List.mem_cons]
    · simp only [List.mem_cons, ih]
      tauto

theorem mem_sortDescBy {α : Type} (key : α → ℚ) (y : α) (l : List α) :
    y ∈ sortDescBy key l ↔ y ∈ l := by
  induction l with
  | nil => simp [sortDescBy]
  | cons z zs ih => simp [sortDescBy, mem_insertDescBy, ih]

theorem lookupQ_accumAdd_self (l : List (String × ℚ)) (k : String) (v : ℚ) :
    lookupQ (accumAdd l k v) k = some ((lookupQ l k).getD 0 + v) := by
  induction l with
  | nil => simp [accumAdd, lookupQ]
  | cons p rest ih =>
    obtain ⟨k0, v0⟩ := p
    by_cases h : k0 = k
    · subst h
      simp [accumAdd, lookupQ]
    · simp [accumAdd, lookupQ, h, ih]

theorem lookupQ_accumAdd_ne (l : List (String × ℚ)) (k k0 : String) (v : ℚ)
    (h : k0 ≠ k) : lookupQ (accumAdd l k v) k0 = lookupQ l k0 := by
  have hne : k ≠ k0 := fun hh => h hh.symm
  induction l with
  | nil => simp [accumAdd, lookupQ, hne]
  | cons p rest ih =>
    obtain ⟨k1, v1⟩ := p
    by_cases h1 : k1 = k
    · subst h1
      simp [accumAdd, lookupQ, hne]
    · simp [accumAdd, lookupQ, h1, ih]

theorem lookupQ_accumFold (gs : List (Option (String × ℚ))) :
    ∀ (acc : List (String × ℚ)) (s : String),
      lookupQ (gs.foldl accumStep acc) s =
        match lookupQ acc s with
        | some v => some (v + groupSum gs s)
        | none => if hasGroup gs s then some (groupSum gs s) else none := by
  induction gs with
  | nil =>
    intro acc s
    cases h : lookupQ acc s <;> simp [groupSum, hasGroup, h]
  | cons g rest ih =>
    intro acc s
    match g with
    | none =>
      simpa [accumStep, groupSum, hasGroup] using ih acc s
    | some (s0, a) =>
      by_cases ha : a > 0.001
      · by_cases hs : s0 = s
        · subst hs
          have step : (some (s0, a) :: rest).foldl accumStep acc
              = rest.foldl accumStep (accumAdd acc s0 a) := by
            simp [accumStep, ha]
          rw [step, ih (accumAdd acc s0 a) s0, lookupQ_accumAdd_self]
          have hgs : groupSum (some (s0, a) :: rest) s0
              = a + groupSum rest s0 := by
            simp [groupSum, ha]
          have hhg : hasGroup (some (s0, a) :: rest) s0 = true := by
            simp [hasGroup, ha]
          rw [hgs, hhg]
          cases h : lookupQ acc s0
          all_goals simp [h]
          all_goals ring
        · have step : (some (s0, a) :: rest).foldl accumStep acc
              = rest.foldl accumStep (accumAdd acc s0 a) := by
            simp [accumStep, ha]
          rw [step, ih (accumAdd acc s0 a) s,
            lookupQ_accumAdd_ne _ _ _ _ (fun hh => hs hh.symm)]
          have hgs : groupSum (some (s0, a) :: rest) s
              = groupSum rest s := by
            simp [groupSum, fun hh : s0 = s => hs hh]
          have hhg : hasGroup (some (s0, a) :: rest) s
              = hasGroup rest s := by
            simp [hasGroup, fun hh : s0 = s => hs hh]
          rw [hgs, hhg]
      · have step : (some (s0, a) :: rest).foldl accumStep acc
            = rest.foldl accumStep acc := by
          simp [accumStep, ha]
        rw [step, ih acc s]
        have hgs : groupSum (some (s0, a) :: rest) s = groupSum rest s := by
          simp [groupSum, ha]
        have hhg : hasGroup (some (s0, a) :: rest) s = hasGroup rest s := by
          simp [hasGroup, ha]
        rw [hgs, hhg]

theorem lookupQ_accumGroups (gs : List (Option (String × ℚ))) (s : String) :
    lookupQ (accumGroups gs) s =
      if hasGroup gs s then some (groupSum gs s) else none := by
  have h := lookupQ_accumFold gs [] s
  simpa [accumGroups, lookupQ] using h

theorem lookupQ_eq_none_iff (l : List (String × ℚ)) (k : String) :
    lookupQ l k = none ↔ k ∉ l.map Prod.fst := by
  induction l with
  | nil => simp [lookupQ]
  | cons p rest ih =>
    obtain ⟨k0, v0⟩ := p
    by_cases h : k0 = k
    · subst h
      simp [lookupQ]
    · have hne : ¬k = k0 := fun hh => h hh.symm
      simp only [lookupQ, if_neg h, List.map_cons, List.mem_cons, ih,
        not_or]
      simp [hne]

theorem accumAdd_map_fst (l : List (String × ℚ)) (k : String) (v : ℚ) :
    (accumAdd l k v).map Prod.fst =
      if lookupQ l k = none then l.map Prod.fst ++ [k]
      else l.map Prod.fst := by
  induction l with
  | nil => simp [accumAdd, lookupQ]
  | cons p rest ih =>
    obtain ⟨k0, v0⟩ := p
    by_cases h : k0 = k
    · subst h
      simp [accumAdd, lookupQ]
    · simp only [accumAdd, lookupQ, if_neg h, List.map_cons, ih]
      split <;> simp

theorem nodup_accumAdd (l : List (String × ℚ)) (k : String) (v : ℚ)
    (h : (l.map Prod.fst).Nodup) :
    ((accumAdd l k v).map Prod.fst).Nodup := by
  rw [accumAdd_map_fst]
  split
  · rename_i hnone
    have hk : k ∉ l.map Prod.fst := (lookupQ_eq_none_iff l k).mp hnone
    simp [List.nodup_append, h, hk]
  · exact h

theorem nodup_accumFold (gs : List (Option (String × ℚ))) :
    ∀ acc : List (String × ℚ), (acc.map Prod.fst).Nodup →
      (((gs.foldl accumStep acc)).map Prod.fst).Nodup := by
  induction gs with
  | nil => intro acc h; simpa using h
  | cons g rest ih =>
    intro acc h
    match g with
    | none => simpa [accumStep] using ih acc h
    | some (s0, a) =>
      by_cases ha : a > 0.001
      · have step : (some (s0, a) :: rest).foldl accumStep acc
            = rest.foldl accumStep (accumAdd acc s0 a) := by
          simp [accumStep, ha]
        rw [step]
        exact ih _ (nodup_accumAdd acc s0 a h)
      · have step : (some (s0, a) :: rest).foldl accumStep acc
            = rest.foldl accumStep acc := by
          simp [accumStep, ha]
        rw [step]
        exact ih acc h

theorem nodup_accumGroups (gs : List (Option (String × ℚ))) :
    ((accumGroups gs).map Prod.fst).Nodup := by
  have h := nodup_accumFold gs []
  simpa [accumGroups] using h (by simp)

theorem mem_iff_lookupQ {l : List (String × ℚ)}
    (h : (l.map Prod.fst).Nodup) (k : String) (v : ℚ) :
    (k, v) ∈ l ↔ lookupQ l k = some v := by
  induction l with
  | nil => simp [lookupQ]
  | cons p rest ih =>
    obtain ⟨k0, v0⟩ := p
    simp only [List.map_cons, List.nodup_cons] at h
    by_cases hk : k0 = k
    · subst hk
      have hif : lookupQ ((k0, v0) :: rest) k0 = some v0 := by
        simp [lookupQ]
      rw [hif, List.mem_cons]
      constructor
      · rintro (hp | hmem)
        · injection hp with h1 h2
          rw [h2]
        · exact absurd (List.mem_map_of_mem Prod.fst hmem) h.1
      · intro hsome
        injection hsome with hv
        exact Or.inl (by rw [hv])
    · simp only [lookupQ, if_neg hk, List.mem_cons]
      rw [← ih h.2]
      constructor
      · rintro (hp | hmem)
        · exact absurd (congrArg Prod.fst hp) (fun hh => hk hh.symm)
        · exact hmem
      · exact Or.inr

theorem groupSum_eq_zero (gs : List (Option (String × ℚ))) (s : String)
    (h : hasGroup gs s = false) : groupSum gs s = 0 := by
  induction gs with
  | nil => simp [groupSum]
  | cons g rest ih =>
    match g with
    | none =>
      simp only [hasGroup, List.any_cons, Bool.false_or] at h
      simpa [groupSum] using ih h
    | some (s0, a) =>
      simp only [hasGroup, List.any_cons, Bool.or_eq_false_iff,
        decide_eq_false_iff_not] at h
      have hrest : hasGroup rest s = false := h.2
      have hcond : ¬(s0 = s ∧ a > 0.001) := h.1
      simpa [groupSum, hcond] using ih hrest

/-- C1, counterexample.  In the spec scenario (profiles "dev" and "ops"
both resolving to account 111111111111 with Compute costs 5.00 and
7.00), `process_combined_profiles` reports a merged Compute cost of
5.00 — the first profile's amount alone, not the claimed sum 12.00 —
and swapping the profile order changes the result. -/
theorem claim_C1_counterexample :
    ((processCombinedProfiles scenarioFetch acctIdEx
        [devProfile, opsProfile]).map fun r => r.1.serviceCosts)
      = some [("Compute", 5)]
    ∧ ((processCombinedProfiles scenarioFetch acctIdEx
        [devProfile, opsProfile]).map fun r => r.1.serviceCosts)
      ≠ some [("Compute", 12)]
    ∧ ((processCombinedProfiles scenarioFetch acctIdEx
        [devProfile, opsProfile]).map fun r => r.1.serviceCosts)
      ≠ ((processCombinedProfiles scenarioFetch acctIdEx
        [opsProfile, devProfile]).map fun r => r.1.serviceCosts) := by
  have hne : (("ops" : String) = "dev") = False := by
    simp only [eq_iff_iff, iff_false]
    decide
  refine ⟨?_, ?_, ?_⟩ <;>
    norm_num [processCombinedProfiles, scenarioFetch, acctIdEx, devProfile,
      opsProfile, devCostData, opsCostData, accumGroups, accumStep,
      accumAdd, sortDescBy, insertDescBy, hne]

/-- C1, amended.  The merged per-service totals produced by
`process_combined_profiles` come from the first profile of the group
alone: a pair `(s, t)` appears in the merged service costs exactly when
`t` is the filtered sum of the first profile's cost groups for service
`s` and `t` clears the 0.001 materiality threshold; the profiles after
the first never influence the merged totals (the claimed sum over all
profiles of the group, and the claimed order-independence, fail — see
the counterexample). -/
theorem claim_C1_amended (fetch : String → Option CostData)
    (accountId primaryProf : String) (rest rest2 : List String)
    (s : String) (t : ℚ) (pd : ProfileData) (ws : List String)
    (h : processCombinedProfiles fetch accountId (primaryProf :: rest)
        = some (pd, ws)) :
    ((s, t) ∈ pd.serviceCosts ↔
      t = primaryServiceTotal
            ((fetch primaryProf).getD (defaultCostData accountId)) s
        ∧ t > 0.001)
    ∧ (processCombinedProfiles fetch accountId (primaryProf :: rest2)).map
        (fun r => r.1.serviceCosts) = some pd.serviceCosts := by
  have hserv : pd.serviceCosts = sortDescBy (fun p => p.2)
      ((accumGroups
          ((fetch primaryProf).getD
            (defaultCostData accountId)).costByService).filter
        (fun p => p.2 > 0.001)) := by
    simp only [processCombinedProfiles, Option.some.injEq,
      Prod.mk.injEq] at h
    obtain ⟨hpd, hws⟩ := h
    rw [← hpd]
  have hsum : primaryServiceTotal
      ((fetch primaryProf).getD (defaultCostData accountId)) s
      = groupSum
          ((fetch primaryProf).getD
            (defaultCostData accountId)).costByService s := rfl
  constructor
  · rw [hserv, mem_sortDescBy, List.mem_filter, hsum]
    rw [mem_iff_lookupQ (nodup_accumGroups _) s t, lookupQ_accumGroups]
    constructor
    · rintro ⟨hl, hdec⟩
      have ht : t > 0.001 := by simpa using hdec
      by_cases hg : hasGroup
          ((fetch primaryProf).getD
            (defaultCostData accountId)).costByService s = true
      · rw [if_pos hg] at hl
        exact ⟨(Option.some_inj.mp hl).symm, ht⟩
      · rw [if_neg hg] at hl
        cases hl
    · rintro ⟨rfl, ht⟩
      have hg : hasGroup
          ((fetch primaryProf).getD
            (defaultCostData accountId)).costByService s = true := by
        by_contra hng
        have h0 := groupSum_eq_zero
          ((fetch primaryProf).getD
            (defaultCostData accountId)).costByService s
          (by simpa using hng)
        rw [h0] at ht
        norm_num at ht
      exact ⟨by rw [if_pos hg], by simpa using ht⟩
  · simp [processCombinedProfiles, hserv]

/-- C1, witness for the amended theorem: the scenario gateway with "dev"
first yields the merged pair (Compute, 5.00), which is exactly the dev
profile's own filtered total. -/
theorem claim_C1_amended_witness :
    ((computeSvc, (5 : ℚ)) ∈ c1PD.serviceCosts ↔
      (5 : ℚ) = primaryServiceTotal
            ((scenarioFetch devProfile).getD (defaultCostData acctIdEx))
            computeSvc
        ∧ (5 : ℚ) > 0.001)
    ∧ (processCombinedProfiles scenarioFetch acctIdEx
        (devProfile :: [devProfile])).map
        (fun r => r.1.serviceCosts) = some c1PD.serviceCosts :=
  claim_C1_amended scenarioFetch acctIdEx devProfile [opsProfile]
    [devProfile] computeSvc 5 c1PD []
    (by norm_num [processCombinedProfiles, scenarioFetch, acctIdEx,
      devProfile, opsProfile, devCostData, accumGroups, accumStep,
      accumAdd, sortDescBy, insertDescBy, c1PD, commaSep])

/-- C6 (confirmed).  When the cost retrieval for the (primary) profile
of a combined group fails, `process_combined_profiles` still returns a
result: the failed retrieval contributes zero to every merged total, the
service-cost list is empty, the result is marked successful rather than
aborting the run, and a warning is surfaced. -/
theorem claim_C6_partial_failure (fetch : String → Option CostData)
    (accountId p : String) (rest : List String) (h : fetch p = none) :
    (processCombinedProfiles fetch accountId (p :: rest)).isSome = true
    ∧ ∀ pd ws,
        processCombinedProfiles fetch accountId (p :: rest)
          = some (pd, ws) →
        pd.currentMonth = 0 ∧ pd.lastMonth = 0 ∧ pd.serviceCosts = []
          ∧ pd.success = true ∧ pd.error = none ∧ ws ≠ [] := by
  constructor
  · simp [processCombinedProfiles]
  · intro pd ws heq
    simp only [processCombinedProfiles, Option.some.injEq,
      Prod.mk.injEq] at heq
    obtain ⟨hpd, hws⟩ := heq
    rw [← hpd, ← hws]
    simp [h, defaultCostData, accumGroups, sortDescBy]

/-- C6, witness: a gateway on which every retrieval fails, one profile
"dev"; the returned data has zero totals, empty costs, success flag set,
and a non-empty warning list. -/
theorem claim_C6_witness :
    (processCombinedProfiles failFetch acctIdEx
      (devProfile :: [])).isSome = true
    ∧ ∀ pd ws,
        processCombinedProfiles failFetch acctIdEx (devProfile :: [])
          = some (pd, ws) →
        pd.currentMonth = 0 ∧ pd.lastMonth = 0 ∧ pd.serviceCosts = []
          ∧ pd.success = true ∧ pd.error = none ∧ ws ≠ [] :=
  claim_C6_partial_failure failFetch acctIdEx devProfile [] rfl

/-! Lemmas about the anomaly-detection embedding. -/

theorem flaggedPoints_sound (cs : List ℚ) :
    ∀ (ps : List (Bool × ℚ)) (i : ℕ) (p : ℕ × ℚ × ℚ),
      p ∈ flaggedPoints i cs ps →
      ∃ j, p.1 = i + j ∧ cs.get? j = some p.2.1
        ∧ ps.get? j = some (true, p.2.2) := by
  induction cs with
  | nil => intro ps i p hp; simp [flaggedPoints] at hp
  | cons c rest ih =>
    intro ps i p hp
    cases ps with
    | nil => simp [flaggedPoints] at hp
    | cons q ps0 =>
      obtain ⟨flag, score⟩ := q
      by_cases hf : flag = true
      · subst hf
        simp only [flaggedPoints, eq_self_iff_true, if_true,
          List.mem_cons] at hp
        rcases hp with hp | hp
        · subst hp
          exact ⟨0, by simp, by simp, by simp⟩
        · obtain ⟨j, hj, hc, hs⟩ := ih ps0 (i + 1) p hp
          refine ⟨j + 1, ?_, by simpa using hc, by simpa using hs⟩
          omega
      · have hf0 : flag = false := by
          cases flag
          · rfl
          · exact absurd rfl hf
        subst hf0
        simp only [flaggedPoints] at hp
        rw [if_neg (by simp)] at hp
        obtain ⟨j, hj, hc, hs⟩ := ih ps0 (i + 1) p hp
        refine ⟨j + 1, ?_, by simpa using hc, by simpa using hs⟩
        omega

theorem lookupCosts_eq {hist : List (String × List ℚ)}
    (hnd : (hist.map Prod.fst).Nodup) {s : String} {cs : List ℚ}
    (h : (s, cs) ∈ hist) : lookupCosts hist s = cs := by
  induction hist with
  | nil => simp at h
  | cons e rest ih =>
    obtain ⟨s0, cs0⟩ := e
    simp only [List.map_cons, List.nodup_cons] at hnd
    rcases List.mem_cons.mp h with hp | hmem
    · injection hp with h1 h2
      subst h1
      subst h2
      simp [lookupCosts]
    · by_cases hs0 : s0 = s
      · subst hs0
        exact absurd (List.mem_map_of_mem Prod.fst hmem) hnd.1
      · simpa [lookupCosts, hs0] using ih hnd.2 hmem

theorem mem_detectServiceAnomalies
    {model : ℚ → List ℚ → List (Bool × ℚ)}
    {hist : List (String × List ℚ)} {sens : ℚ} {s : String}
    {pts : List (ℕ × ℚ × ℚ)}
    (h : (s, pts) ∈ detectServiceAnomalies model hist sens) :
    ∃ cs, (s, cs) ∈ hist ∧ ¬(cs.length < 14)
      ∧ pts = flaggedPoints 0 cs (model sens cs) ∧ pts ≠ [] := by
  simp only [detectServiceAnomalies, List.mem_filterMap] at h
  obtain ⟨⟨s0, cs⟩, hmem, hf⟩ := h
  by_cases h14 : cs.length < 14
  · rw [if_pos h14] at hf
    cases hf
  · rw [if_neg h14] at hf
    by_cases hnil : flaggedPoints 0 cs (model sens cs) = []
    · simp only [hnil, if_pos rfl] at hf
      cases hf
    · simp only [if_neg hnil, Option.some.injEq, Prod.mk.injEq] at hf
      obtain ⟨hs0, hpts⟩ := hf
      subst hs0
      exact ⟨cs, hmem, h14, hpts.symm, hpts ▸ hnil⟩

/-- C9 (confirmed).  A service whose daily cost series has fewer than
14 data points is skipped entirely by `detect_service_anomalies`: it
never appears among the per-service anomaly lists, and consequently no
anomaly record is ever produced for it (the embedding is a total
function — no error is reported, the series is just dropped). -/
theorem claim_C9_short_series_skipped
    (model : ℚ → List ℚ → List (Bool × ℚ))
    (hist : List (String × List ℚ)) (sens : ℚ) (s : String)
    (hshort : ∀ cs, (s, cs) ∈ hist → cs.length < 14) :
    (∀ pts, (s, pts) ∉ detectServiceAnomalies model hist sens)
    ∧ ∀ recs, (s, recs) ∉ detectAnomalies model hist sens := by
  constructor
  · intro pts hmem
    obtain ⟨cs, hcs, h14, _, _⟩ := mem_detectServiceAnomalies hmem
    exact h14 (hshort cs hcs)
  · intro recs hmem
    simp only [detectAnomalies, processAnomalies, List.mem_map] at hmem
    obtain ⟨⟨s0, pts0⟩, hsa, heq⟩ := hmem
    have hs0 : s0 = s := by simpa using congrArg Prod.fst heq
    subst hs0
    obtain ⟨cs, hcs, h14, _, _⟩ := mem_detectServiceAnomalies hsa
    exact h14 (hshort cs hcs)

/-- C9, witness: a 3-day series is skipped by the detector and produces
no records. -/
theorem claim_C9_witness :
    (∀ pts, (svcLambda, pts) ∉
        detectServiceAnomalies spikeModel shortHist (5/100))
    ∧ ∀ recs, (svcLambda, recs) ∉
        detectAnomalies spikeModel shortHist (5/100) :=
  claim_C9_short_series_skipped spikeModel shortHist (5/100) svcLambda
    (by
      intro cs hcs
      simp only [shortHist, svcLambda, List.mem_singleton,
        Prod.mk.injEq] at hcs
      rw [hcs.2]
      norm_num)

/-- C4, counterexample.  On a 14-day series summing to zero (costs 5,
-5, then twelve zeros) with an outlier model that flags the first day,
the pipeline materializes an `AnomalyRecord` whose baseline is 0 — not
strictly positive.  The code has no `baseline > 0` guard: it merely
sets the deviation to 0 in that case. -/
theorem claim_C4_counterexample :
    detectAnomalies spikeModel zeroSumHist (5/100)
      = [(("S3" : String), [zeroBaselineRecord])]
    ∧ ¬(0 < zeroBaselineRecord.baseline) := by
  constructor
  · norm_num [detectAnomalies, detectServiceAnomalies, processAnomalies,
      zeroSumHist, zeroSumCosts, spikeModel, flaggedPoints,
      mkAnomalyRecord, seriesBaseline, lookupCosts, calculateDeviation,
      zeroBaselineRecord, List.filterMap_cons, List.filterMap_nil]
  · norm_num [zeroBaselineRecord]

/-- C4, amended.  An `AnomalyRecord` is materialized for every day the
outlier model flags, with the series mean as baseline and with
deviation-multiplier `amount / baseline` when the baseline is strictly
positive and `0` otherwise; the `baseline > 0` condition is *not*
required for materialization (see the counterexample). -/
theorem claim_C4_amended (model : ℚ → List ℚ → List (Bool × ℚ))
    (hist : List (String × List ℚ)) (sens : ℚ) (s : String)
    (pts : List (ℕ × ℚ × ℚ)) (hnd : (hist.map Prod.fst).Nodup)
    (h : (s, pts) ∈ detectServiceAnomalies model hist sens) :
    ((s, pts.map (mkAnomalyRecord (lookupCosts hist s)
        (seriesBaseline hist s))) ∈ detectAnomalies model hist sens)
    ∧ (∀ p ∈ pts,
        (model sens (lookupCosts hist s)).get? p.1 = some (true, p.2.2)
        ∧ (lookupCosts hist s).get? p.1 = some p.2.1)
    ∧ ∀ p ∈ pts,
        (mkAnomalyRecord (lookupCosts hist s)
            (seriesBaseline hist s) p).deviation
          = if 0 < seriesBaseline hist s
            then p.2.1 / seriesBaseline hist s else 0 := by
  obtain ⟨cs, hcs, _, hpts, _⟩ := mem_detectServiceAnomalies h
  have hlk : lookupCosts hist s = cs := lookupCosts_eq hnd hcs
  refine ⟨?_, ?_, ?_⟩
  · simpa [detectAnomalies, processAnomalies] using
      List.mem_map_of_mem
        (fun sa => (sa.1, sa.2.map (mkAnomalyRecord
          (lookupCosts hist sa.1) (seriesBaseline hist sa.1)))) h
  · intro p hp
    rw [hpts] at hp
    obtain ⟨j, hj, hc, hs⟩ := flaggedPoints_sound cs (model sens cs) 0 p hp
    have hj0 : p.1 = j := by omega
    rw [hlk, hj0]
    exact ⟨hs, hc⟩
  · intro p _
    by_cases hb : 0 < seriesBaseline hist s
    · simp [mkAnomalyRecord, calculateDeviation, hb, not_le.mpr hb]
    · simp [mkAnomalyRecord, calculateDeviation, hb, not_lt.mp hb]

/-- C4, witness for the amended theorem, at the zero-sum series: the
flagged first day yields a record with zero baseline and deviation 0. -/
theorem claim_C4_witness :
    ((svcS3, [zeroSumPoint].map (mkAnomalyRecord
        (lookupCosts zeroSumHist svcS3) (seriesBaseline zeroSumHist svcS3)))
      ∈ detectAnomalies spikeModel zeroSumHist (5/100))
    ∧ (∀ p ∈ [zeroSumPoint],
        (spikeModel (5/100) (lookupCosts zeroSumHist svcS3)).get? p.1
            = some (true, p.2.2)
        ∧ (lookupCosts zeroSumHist svcS3).get? p.1 = some p.2.1)
    ∧ ∀ p ∈ [zeroSumPoint],
        (mkAnomalyRecord (lookupCosts zeroSumHist svcS3)
            (seriesBaseline zeroSumHist svcS3) p).deviation
          = if 0 < seriesBaseline zeroSumHist svcS3
            then p.2.1 / seriesBaseline zeroSumHist svcS3 else 0 :=
  claim_C4_amended spikeModel zeroSumHist (5/100) svcS3 [zeroSumPoint]
    (by simp [zeroSumHist])
    (by norm_num [detectServiceAnomalies, zeroSumHist, zeroSumCosts,
      spikeModel, flaggedPoints, svcS3, zeroSumPoint,
      List.filterMap_cons, List.filterMap_nil])

/-- C3, counterexample.  With sensitivity 2.0 — the CLI default, well
outside the documented range 0.01-0.5 — `detect_service_anomalies`
still runs the analysis and produces anomalies: nothing is surfaced to
the caller before analysis, and the result is the same as with the
valid default 0.05 for any model that (like any fixed function of the
series) is applied to the out-of-range value unchanged. -/
theorem claim_C3_counterexample :
    detectServiceAnomalies spikeModel zeroSumHist 2 ≠ []
    ∧ ¬((1/100 : ℚ) ≤ 2 ∧ (2 : ℚ) ≤ 1/2)
    ∧ detectServiceAnomalies spikeModel zeroSumHist 2
      = detectServiceAnomalies spikeModel zeroSumHist (5/100) := by
  refine ⟨?_, ?_, ?_⟩ <;>
    norm_num [detectServiceAnomalies, zeroSumHist, zeroSumCosts,
      spikeModel, flaggedPoints, List.filterMap_cons, List.filterMap_nil]

/-- C3, amended.  The sensitivity value is never validated: the
analysis pipeline passes it to the outlier model unchanged and runs for
any value whatsoever, so the result depends on the sensitivity only
through the model.  Any rejection of an out-of-range contamination
value happens inside the external model during analysis, not before
analysis begins. -/
theorem claim_C3_amended (model : ℚ → List ℚ → List (Bool × ℚ))
    (hist : List (String × List ℚ)) (s1 s2 : ℚ)
    (h : ∀ cs, model s1 cs = model s2 cs) :
    detectAnomalies model hist s1 = detectAnomalies model hist s2 := by
  have hd : detectServiceAnomalies model hist s1
      = detectServiceAnomalies model hist s2 := by
    unfold detectServiceAnomalies
    induction hist with
    | nil => rfl
    | cons e rest ih =>
      simp only [List.filterMap_cons, h e.2, ih]
  simp [detectAnomalies, hd]

/-- C3, witness: for a model that ignores the sensitivity (as any
deterministic instantiation applied to both values does), running at
the out-of-range 2.0 produces the same full analysis as at 0.05. -/
theorem claim_C3_witness :
    detectAnomalies spikeModel zeroSumHist 2
      = detectAnomalies spikeModel zeroSumHist (5/100) :=
  claim_C3_amended spikeModel zeroSumHist 2 (5/100) (fun _ => rfl)

/-! Lemmas about the pricing tables and the right-sizing analyzer. -/

theorem lookupA_mem {α : Type} {l : List (String × α)} {k : String}
    {v : α} (h : lookupA l k = some v) : (k, v) ∈ l := by
  induction l with
  | nil => simp [lookupA] at h
  | cons p rest ih =>
    obtain ⟨k0, v0⟩ := p
    by_cases hk : k0 = k
    · subst hk
      have hif : lookupA ((k0, v0) :: rest) k0 = some v0 := by
        simp [lookupA]
      rw [hif] at h
      obtain rfl := Option.some.inj h
      exact List.mem_cons_self _ _
    · simp only [lookupA, if_neg hk] at h
      exact List.mem_cons_of_mem _ (ih h)

theorem listIndex_get {α : Type} [DecidableEq α] {x : α} {l : List α} :
    ∀ {i : ℕ}, listIndex x l = some i → l.get? i = some x := by
  induction l with
  | nil => intro i h; simp [listIndex] at h
  | cons y ys ih =>
    intro i h
    by_cases hy : y = x
    · subst hy
      have : listIndex y (y :: ys) = some 0 := by simp [listIndex]
      rw [this] at h
      obtain rfl := Option.some.inj h
      simp
    · simp only [listIndex, if_neg hy, Option.map_eq_some'] at h
      obtain ⟨j, hj, hi⟩ := h
      subst hi
      simpa using ih hj

set_option maxHeartbeats 1000000 in
theorem pricing_step_lt : ∀ t a, lookupA INSTANCE_PRICING t = some a →
    ∀ s, getSmallerInstance t = some s →
    ∀ b, lookupA INSTANCE_PRICING s = some b → b < a := by
  intro t a ht s hs b hb
  have hmem : (t, a) ∈ INSTANCE_PRICING := lookupA_mem ht
  fin_cases hmem <;>
    first
      | exact absurd hs (fun hcon => Option.noConfusion hcon)
      | (obtain rfl := Option.some.inj hs
         obtain rfl := Option.some.inj hb
         norm_num)

theorem INSTANCE_PRICING_pos : ∀ p ∈ INSTANCE_PRICING, 0 < p.2 := by
  intro p hp
  fin_cases hp <;> norm_num

theorem ec2BasePrices_pos : ∀ p ∈ ec2BasePrices, 0 < p.2 := by
  intro p hp
  fin_cases hp <;> norm_num

theorem rdsBasePrices_pos : ∀ p ∈ rdsBasePrices, 0 < p.2 := by
  intro p hp
  fin_cases hp <;> norm_num

theorem regionMultipliers_pos : ∀ p ∈ regionMultipliers, 0 < p.2 := by
  intro p hp
  fin_cases hp <;> norm_num

theorem lookupA_getD_pos {l : List (String × ℚ)} {d : ℚ}
    (hl : ∀ p ∈ l, 0 < p.2) (hd : 0 < d) (k : String) :
    0 < (lookupA l k).getD d := by
  induction l with
  | nil => simpa [lookupA] using hd
  | cons p rest ih =>
    obtain ⟨k0, v⟩ := p
    by_cases hk : k0 = k
    · subst hk
      have hif : lookupA ((k0, v) :: rest) k0 = some v := by
        simp [lookupA]
      rw [hif]
      exact hl (k0, v) (List.mem_cons_self _ _)
    · simp only [lookupA, if_neg hk]
      exact ih (fun q hq => hl q (List.mem_cons_of_mem _ hq))

theorem mem_analyzeEC2RightSizing (thr : ℚ)
    (instances : List EC2Instance) (rec : EC2Rec) :
    rec ∈ analyzeEC2RightSizing thr instances ↔
      ∃ inst ∈ instances, ∃ smaller,
        getSmallerInstance inst.instanceType = some smaller
        ∧ inst.datapoints ≠ []
        ∧ avgCpuOf inst.datapoints < thr
        ∧ maxCpuOf inst.datapoints < 80
        ∧ rec = mkEC2Rec inst smaller := by
  rw [analyzeEC2RightSizing, mem_sortDescBy, List.mem_filterMap]
  constructor
  · rintro ⟨inst, hmem, hf⟩
    refine ⟨inst, hmem, ?_⟩
    rcases hgs : getSmallerInstance inst.instanceType with _ | smaller
    · simp only [hgs] at hf
      cases hf
    · simp only [hgs] at hf
      by_cases hdp : inst.datapoints = []
      · rw [if_pos hdp] at hf
        cases hf
      · rw [if_neg hdp] at hf
        by_cases hcond : avgCpuOf inst.datapoints < thr
            ∧ maxCpuOf inst.datapoints < 80
        · rw [if_pos hcond] at hf
          exact ⟨smaller, rfl, hdp, hcond.1, hcond.2,
            (Option.some.inj hf).symm⟩
        · rw [if_neg hcond] at hf
          cases hf
  · rintro ⟨inst, hmem, smaller, hgs, hdp, havg, hmax, rfl⟩
    refine ⟨inst, hmem, ?_⟩
    simp only [hgs]
    rw [if_neg hdp, if_pos ⟨havg, hmax⟩]

theorem getSmallerInstance_step {t s : String}
    (h : getSmallerInstance t = some s) :
    ∃ fam ladder i, (fam, ladder) ∈ INSTANCE_FAMILIES
      ∧ ladder.get? i = some s ∧ ladder.get? (i + 1) = some t := by
  unfold getSmallerInstance at h
  by_cases hlen : (splitDot t).length ≠ 2
  · rw [if_pos hlen] at h
    cases h
  · rw [if_neg hlen] at h
    rcases hfam : lookupA INSTANCE_FAMILIES ((splitDot t).headD "")
      with _ | ladder
    · simp only [hfam] at h
      cases h
    · simp only [hfam] at h
      rcases hidx : listIndex t ladder with _ | idx
      · simp only [hidx] at h
        cases h
      · simp only [hidx] at h
        by_cases hpos : idx > 0
        · rw [if_pos hpos] at h
          refine ⟨(splitDot t).headD "", ladder, idx - 1,
            lookupA_mem hfam, h, ?_⟩
          have : idx - 1 + 1 = idx := by omega
          rw [this]
          exact listIndex_get hidx
        · rw [if_neg hpos] at h
          cases h

/-- C7 (confirmed).  For every running instance with CPU datapoints
whose type has a smaller sibling, a right-sizing recommendation is
emitted if and only if the window-average CPU is below the threshold
and the window-maximum CPU is below 80; the emitted record carries
`get_smaller_instance` of the current type as its recommended type,
and `get_smaller_instance` always returns the type exactly one step
below the current one in its family ladder. -/
theorem claim_C7_right_sizing (thr : ℚ) (instances : List EC2Instance)
    (rec : EC2Rec) :
    (rec ∈ analyzeEC2RightSizing thr instances ↔
      ∃ inst ∈ instances, ∃ smaller,
        getSmallerInstance inst.instanceType = some smaller
        ∧ inst.datapoints ≠ []
        ∧ avgCpuOf inst.datapoints < thr
        ∧ maxCpuOf inst.datapoints < 80
        ∧ rec = mkEC2Rec inst smaller)
    ∧ ∀ t s : String, getSmallerInstance t = some s →
        ∃ fam ladder i, (fam, ladder) ∈ INSTANCE_FAMILIES
          ∧ ladder.get? i = some s ∧ ladder.get? (i + 1) = some t :=
  ⟨mem_analyzeEC2RightSizing thr instances rec,
   fun _ _ h => getSmallerInstance_step h⟩

/-- C7, witness: the spec scenario — a t3.large averaging 8% CPU with
a 35% maximum is recommended for downsizing to t3.medium. -/
theorem claim_C7_witness :
    mkEC2Rec t3Inst t3MediumStr ∈ analyzeEC2RightSizing 40 [t3Inst] :=
  (claim_C7_right_sizing 40 [t3Inst] (mkEC2Rec t3Inst t3MediumStr)).1.mpr
    ⟨t3Inst, by simp, t3MediumStr, by decide, by simp [t3Inst],
     by norm_num [t3Inst, avgCpuOf], by norm_num [t3Inst, maxCpuOf], rfl⟩

/-! Lemmas for the savings-sign claims. -/

theorem volumeMonthlyCost_nonneg (v : Volume) :
    0 ≤ volumeMonthlyCost v := by
  unfold volumeMonthlyCost
  split_ifs <;> positivity

theorem mem_generateEC2RIRecs {pats : List UsagePattern} {rec : RIRec}
    (h : rec ∈ generateEC2RIRecs pats) :
    ∃ pat ∈ pats, ¬pat.confidence = "Low"
      ∧ ¬(⌊pat.avgDailyUsage / 24⌋ < 1) ∧ rec = mkEC2RIRec pat := by
  simp only [generateEC2RIRecs, List.mem_filterMap] at h
  obtain ⟨pat, hp, hf⟩ := h
  by_cases h1 : pat.confidence = "Low"
  · rw [if_pos h1] at hf
    cases hf
  · rw [if_neg h1] at hf
    by_cases h2 : ⌊pat.avgDailyUsage / 24⌋ < 1
    · rw [if_pos h2] at hf
      cases hf
    · rw [if_neg h2] at hf
      exact ⟨pat, hp, h1, h2, (Option.some.inj hf).symm⟩

theorem mem_generateRDSRIRecs {pats : List UsagePattern} {rec : RIRec}
    (h : rec ∈ generateRDSRIRecs pats) :
    ∃ pat ∈ pats, ¬pat.confidence = "Low"
      ∧ ¬(⌊pat.avgDailyUsage / 24⌋ < 1) ∧ rec = mkRDSRIRec pat := by
  simp only [generateRDSRIRecs, List.mem_filterMap] at h
  obtain ⟨pat, hp, hf⟩ := h
  by_cases h1 : pat.confidence = "Low"
  · rw [if_pos h1] at hf
    cases hf
  · rw [if_neg h1] at hf
    by_cases h2 : ⌊pat.avgDailyUsage / 24⌋ < 1
    · rw [if_pos h2] at hf
      cases hf
    · rw [if_neg h2] at hf
      exact ⟨pat, hp, h1, h2, (Option.some.inj hf).symm⟩

theorem ec2RIRec_savings_pos {pat : UsagePattern}
    (h : ¬(⌊pat.avgDailyUsage / 24⌋ < 1)) :
    0 < (mkEC2RIRec pat).monthlySavings := by
  have hrate : 0 < ec2HourlyRate pat.instanceType pat.region :=
    mul_pos (lookupA_getD_pos ec2BasePrices_pos (by norm_num) _)
      (lookupA_getD_pos regionMultipliers_pos (by norm_num) _)
  have hcnt : (1 : ℚ) ≤ ((⌊pat.avgDailyUsage / 24⌋ : ℤ) : ℚ) := by
    exact_mod_cast not_lt.mp h
  have hc : (0 : ℚ) < ((⌊pat.avgDailyUsage / 24⌋ : ℤ) : ℚ) :=
    lt_of_lt_of_le one_pos hcnt
  simp only [mkEC2RIRec]
  nlinarith [mul_pos hrate hc]

theorem rdsRIRec_savings_pos {pat : UsagePattern}
    (h : ¬(⌊pat.avgDailyUsage / 24⌋ < 1)) :
    0 < (mkRDSRIRec pat).monthlySavings := by
  have hrate : 0 < rdsHourlyRate pat.instanceType pat.region :=
    mul_pos (lookupA_getD_pos rdsBasePrices_pos (by norm_num) _)
      (lookupA_getD_pos regionMultipliers_pos (by norm_num) _)
  have hcnt : (1 : ℚ) ≤ ((⌊pat.avgDailyUsage / 24⌋ : ℤ) : ℚ) := by
    exact_mod_cast not_lt.mp h
  have hc : (0 : ℚ) < ((⌊pat.avgDailyUsage / 24⌋ : ℤ) : ℚ) :=
    lt_of_lt_of_le one_pos hcnt
  simp only [mkRDSRIRec]
  nlinarith [mul_pos hrate hc]

/-- C2, counterexample.  A low-CPU m5.4xlarge is recommended for
downsizing with *negative* savings: its type is missing from
`INSTANCE_PRICING`, so its rate defaults to 0 while the recommended
m5.2xlarge costs 0.384/h, and the resulting candidate is emitted
rather than discarded. -/
theorem claim_C2_counterexample :
    analyzeEC2RightSizing 40 [m54xInst]
      = [mkEC2Rec m54xInst ("m5.2xlarge")]
    ∧ (mkEC2Rec m54xInst ("m5.2xlarge")).savings < 0 := by
  have hgs : getSmallerInstance ("m5.4xlarge") = some ("m5.2xlarge") := by
    decide
  constructor
  · norm_num +decide [analyzeEC2RightSizing, m54xInst, hgs, avgCpuOf,
      maxCpuOf, sortDescBy, insertDescBy, List.filterMap_cons,
      List.filterMap_nil]
  · norm_num +decide [mkEC2Rec, m54xInst, getInstancePricing, lookupA,
      INSTANCE_PRICING]

/-- C2, amended.  The right-sizing generator applies no savings-sign
filter: a recommendation's savings are positive whenever the current
type has an entry in the static pricing table, but a type missing from
the table yields zero or negative savings that are emitted anyway (see
the counterexample).  Unused-resource recommendations always carry
non-negative savings — zero-savings volume candidates are emitted, and
only the stopped-instance path demands positive savings.  The
heuristic Reserved-Instance generators only emit recommendations with
strictly positive savings. -/
theorem claim_C2_amended :
    (∀ (thr : ℚ) (instances : List EC2Instance) (rec : EC2Rec),
        rec ∈ analyzeEC2RightSizing thr instances →
        (lookupA INSTANCE_PRICING rec.currentType).isSome = true →
        0 < rec.savings)
    ∧ (∀ (region : String) (volumes : List Volume)
        (addresses : List Address) (stopped : List StoppedInstance)
        (rec : ResourceRec),
        rec ∈ analyzeUnusedResources region volumes addresses stopped →
        0 ≤ rec.savings
          ∧ (rec.resourceType = "EC2 Instance" → 0 < rec.savings))
    ∧ (∀ (pats : List UsagePattern) (rec : RIRec),
        rec ∈ generateEC2RIRecs pats → 0 < rec.monthlySavings)
    ∧ (∀ (pats : List UsagePattern) (rec : RIRec),
        rec ∈ generateRDSRIRecs pats → 0 < rec.monthlySavings) := by
  refine ⟨?_, ?_, ?_, ?_⟩
  · intro thr instances rec hmem hsome
    obtain ⟨inst, _, smaller, hgs, _, _, _, rfl⟩ :=
      (mem_analyzeEC2RightSizing thr instances rec).mp hmem
    simp only [mkEC2Rec] at hsome ⊢
    obtain ⟨a, ha⟩ := Option.isSome_iff_exists.mp hsome
    have hapos : 0 < a := by
      simpa using INSTANCE_PRICING_pos _ (lookupA_mem ha)
    rcases hb : lookupA INSTANCE_PRICING smaller with _ | b
    · simp only [getInstancePricing, ha, hb, Option.getD_some,
        Option.getD_none]
      nlinarith [hapos]
    · have hba : b < a := pricing_step_lt _ _ ha _ hgs _ hb
      simp only [getInstancePricing, ha, hb, Option.getD_some]
      nlinarith [hba]
  · intro region volumes addresses stopped rec hmem
    rw [analyzeUnusedResources, mem_sortDescBy] at hmem
    rcases List.mem_append.mp hmem with hAB | hC
    · rcases List.mem_append.mp hAB with hA | hB
      · obtain ⟨v, _, rfl⟩ := List.mem_map.mp hA
        exact ⟨volumeMonthlyCost_nonneg v, fun hcon =>
          absurd (show ("EBS Volume" : String) = "EC2 Instance" from hcon)
            (by decide)⟩
      · obtain ⟨a, _, rfl⟩ := List.mem_map.mp hB
        exact ⟨by norm_num, fun hcon =>
          absurd (show ("Elastic IP" : String) = "EC2 Instance" from hcon)
            (by decide)⟩
    · obtain ⟨inst, _, hf⟩ := List.mem_filterMap.mp hC
      by_cases hvc :
          ((inst.attachedVolumes.filterMap id).map volumeMonthlyCost).sum
            > 0
      · rw [if_pos hvc] at hf
        obtain rfl := Option.some.inj hf
        exact ⟨le_of_lt hvc, fun _ => hvc⟩
      · rw [if_neg hvc] at hf
        cases hf
  · intro pats rec hmem
    obtain ⟨pat, _, _, h2, rfl⟩ := mem_generateEC2RIRecs hmem
    exact ec2RIRec_savings_pos h2
  · intro pats rec hmem
    obtain ⟨pat, _, _, h2, rfl⟩ := mem_generateRDSRIRecs hmem
    exact rdsRIRec_savings_pos h2

/-- C2, witness for the amended theorem: a priced resize (t3.large to
t3.medium) has positive savings; the unassociated-address candidate
has non-negative savings; the steady EC2 and RDS usage patterns yield
Reserved-Instance recommendations with positive savings. -/
theorem claim_C2_witness :
    0 < (mkEC2Rec t3Inst t3MediumStr).savings
    ∧ (0 ≤ eipRec.savings
        ∧ (eipRec.resourceType = "EC2 Instance" → 0 < eipRec.savings))
    ∧ 0 < (mkEC2RIRec steadyPattern).monthlySavings
    ∧ 0 < (mkRDSRIRec steadyRDSPattern).monthlySavings :=
  ⟨claim_C2_amended.1 40 [t3Inst] (mkEC2Rec t3Inst t3MediumStr)
      ((mem_analyzeEC2RightSizing 40 [t3Inst]
          (mkEC2Rec t3Inst t3MediumStr)).mpr
        ⟨t3Inst, by simp, t3MediumStr, by decide, by simp [t3Inst],
         by norm_num [t3Inst, avgCpuOf], by norm_num [t3Inst, maxCpuOf],
         rfl⟩)
      (by decide),
   claim_C2_amended.2.1 usEast1 [] [unassocAddr] [] eipRec
      (by norm_num +decide [analyzeUnusedResources, sortDescBy,
        insertDescBy, unassocAddr, eipRec, List.filterMap_nil]),
   claim_C2_amended.2.2.1 [steadyPattern] (mkEC2RIRec steadyPattern)
      (by norm_num +decide [generateEC2RIRecs, steadyPattern,
        List.filterMap_cons, List.filterMap_nil]),
   claim_C2_amended.2.2.2 [steadyRDSPattern] (mkRDSRIRec steadyRDSPattern)
      (by norm_num +decide [generateRDSRIRecs, steadyRDSPattern,
        List.filterMap_cons, List.filterMap_nil])⟩

/-- C5, counterexample.  A stopped t2.micro in us-east-1 with a single
8 GB gp2 volume attached is flagged with an estimated monthly cost of
8.352 — its *compute* hourly rate (0.0116 × 1.0 × 24 × 30) — while the
attached-storage monthly cost prescribed by the claim (per-GB-month
rate with regional multiplier) is 0.80. -/
theorem claim_C5_counterexample :
    analyzeEC2InstancesRA noClock 14 usEast1 [stoppedMicro]
      = [mkStoppedEntry noClock 14 usEast1 stoppedMicro]
    ∧ (mkStoppedEntry noClock 14 usEast1 stoppedMicro).estimatedMonthlyCost
        = 8.352
    ∧ specAttachedStorageCost usEast1 stoppedMicro = 0.8
    ∧ (8.352 : ℚ) ≠ 0.8 := by
  refine ⟨?_, ?_, ?_, by norm_num⟩
  · norm_num +decide [analyzeEC2InstancesRA, stoppedMicro,
      List.filterMap_cons, List.filterMap_nil]
  · norm_num +decide [mkStoppedEntry, stoppedMicro, usEast1,
      estimateEC2MonthlyCost, lookupA, ec2BasePrices, regionMultipliers]
  · norm_num +decide [specAttachedStorageCost, stoppedMicro, usEast1,
      estimateEBSMonthlyCost, lookupA, ebsBasePrices, regionMultipliers]

/-- C5, amended.  A stopped instance scanned by the unused-resource
analyzer is always flagged, and its entry's estimated monthly cost is
computed from the instance's *compute* hourly rate (static per-type
table with regional multipliers, times 24 × 30), not from its attached
storage; the days-stopped value is taken from the clock applied to the
parenthesized state-transition date when that parse succeeds, and
defaults to the lookback window length otherwise. -/
theorem claim_C5_amended (clock : String → Option ℤ) (lookback : ℤ)
    (region : String) (instances : List RAInstance) :
    (∀ e, (e ∈ analyzeEC2InstancesRA clock lookback region instances
        ∧ e.state = "stopped") ↔
      ∃ inst ∈ instances, inst.state = "stopped"
        ∧ e = mkStoppedEntry clock lookback region inst)
    ∧ (∀ inst, (mkStoppedEntry clock lookback region inst).estimatedMonthlyCost
        = (lookupA ec2BasePrices inst.instanceType).getD 0.1
          * (lookupA regionMultipliers region).getD 1.0 * 24 * 30)
    ∧ (∀ inst ds d, extractParen inst.stateTransitionReason = some ds →
        clock ds = some d →
        (mkStoppedEntry clock lookback region inst).daysUnused = d)
    ∧ (∀ inst, extractParen inst.stateTransitionReason = none →
        (mkStoppedEntry clock lookback region inst).daysUnused = lookback)
    ∧ (∀ inst ds, extractParen inst.stateTransitionReason = some ds →
        clock ds = none →
        (mkStoppedEntry clock lookback region inst).daysUnused
          = lookback) := by
  refine ⟨?_, ?_, ?_, ?_, ?_⟩
  · intro e
    constructor
    · rintro ⟨hmem, hstate⟩
      rw [analyzeEC2InstancesRA] at hmem
      obtain ⟨inst, hin, hf⟩ := List.mem_filterMap.mp hmem
      by_cases ht : inst.state = "terminated"
      · rw [if_pos ht] at hf
        cases hf
      · rw [if_neg ht] at hf
        by_cases hs : inst.state = "stopped"
        · rw [if_pos hs] at hf
          exact ⟨inst, hin, hs, (Option.some.inj hf).symm⟩
        · rw [if_neg hs] at hf
          by_cases hr : inst.state = "running"
          · rw [if_pos hr] at hf
            by_cases hcpu : inst.cpuDatapoints ≠ []
                ∧ inst.cpuDatapoints.sum / inst.cpuDatapoints.length < 5
            · rw [if_pos hcpu] at hf
              obtain rfl := Option.some.inj hf
              exact absurd hstate (by
                simp only [mkUnderutilizedEntry]
                decide)
            · rw [if_neg hcpu] at hf
              cases hf
          · rw [if_neg hr] at hf
            cases hf
    · rintro ⟨inst, hin, hs, rfl⟩
      refine ⟨?_, rfl⟩
      rw [analyzeEC2InstancesRA]
      refine List.mem_filterMap.mpr ⟨inst, hin, ?_⟩
      have ht : ¬inst.state = "terminated" := by
        rw [hs]
        decide
      rw [if_neg ht, if_pos hs]
  · intro inst
    rfl
  · intro inst ds d hds hclock
    simp only [mkStoppedEntry, hds, hclock, Option.getD_some]
  · intro inst hds
    simp only [mkStoppedEntry, hds]
  · intro inst ds hds hclock
    simp only [mkStoppedEntry, hds, hclock, Option.getD_none]

/-- C5, witness: for the stopped t2.micro (whose state-transition
reason has no parseable date) the entry defaults to the 14-day
lookback, and its cost follows the compute hourly-rate formula. -/
theorem claim_C5_witness :
    ((mkStoppedEntry noClock 14 usEast1 stoppedMicro
        ∈ analyzeEC2InstancesRA noClock 14 usEast1 [stoppedMicro]
      ∧ (mkStoppedEntry noClock 14 usEast1 stoppedMicro).state
          = "stopped"))
    ∧ (mkStoppedEntry noClock 14 usEast1 stoppedMicro).daysUnused = 14
    ∧ (mkStoppedEntry noClock 14 usEast1 stoppedMicro).estimatedMonthlyCost
        = (lookupA ec2BasePrices stoppedMicro.instanceType).getD 0.1
          * (lookupA regionMultipliers usEast1).getD 1.0 * 24 * 30 :=
  ⟨((claim_C5_amended noClock 14 usEast1 [stoppedMicro]).1
      (mkStoppedEntry noClock 14 usEast1 stoppedMicro)).mpr
      ⟨stoppedMicro, by simp, by decide, rfl⟩,
   (claim_C5_amended noClock 14 usEast1 [stoppedMicro]).2.2.2.1
      stoppedMicro (by decide),
   (claim_C5_amended noClock 14 usEast1 [stoppedMicro]).2.1 stoppedMicro⟩

/-! Lemmas about the confidence tiers of the RI optimizer. -/

theorem extract_conf_cases {lookback : ℕ} {svc : String}
    {usage : List (List (String × String × ℚ))} {pat : UsagePattern}
    (h : pat ∈ extractConsistentUsage lookback svc usage) :
    pat.confidence = "High" ∨ pat.confidence = "Medium"
      ∨ pat.confidence = "Low" := by
  rw [extractConsistentUsage, mem_sortDescBy] at h
  obtain ⟨ka, _, hf⟩ := List.mem_filterMap.mp h
  by_cases hc : ((ka.2.daysUsed : ℚ) / lookback ≥ 0.7)
  · rw [if_pos hc] at hf
    obtain rfl := Option.some.inj hf
    simp only [mkUsagePattern]
    split_ifs <;> simp
  · rw [if_neg hc] at hf
    cases hf

theorem mem_riRecs_conf {lookback : ℕ}
    {e r : List (List (String × String × ℚ))} {rec : RIRec}
    (h : rec ∈ generateEC2RIRecs (extractConsistentUsage lookback svcEC2 e)
        ++ generateRDSRIRecs (extractConsistentUsage lookback svcRDS r)) :
    rec.confidence = "High" ∨ rec.confidence = "Medium" := by
  rcases List.mem_append.mp h with h | h
  · obtain ⟨pat, hp, hl, _, rfl⟩ := mem_generateEC2RIRecs h
    rcases extract_conf_cases hp with h1 | h1 | h1
    · exact Or.inl (by simpa [mkEC2RIRec] using h1)
    · exact Or.inr (by simpa [mkEC2RIRec] using h1)
    · exact absurd h1 hl
  · obtain ⟨pat, hp, hl, _, rfl⟩ := mem_generateRDSRIRecs h
    rcases extract_conf_cases hp with h1 | h1 | h1
    · exact Or.inl (by simpa [mkRDSRIRec] using h1)
    · exact Or.inr (by simpa [mkRDSRIRec] using h1)
    · exact absurd h1 hl

/-- C8 (confirmed).  No Reserved-Instance or Savings-Plan
recommendation with confidence "Low" ever appears in the final output:
the RI generators skip every Low-confidence usage pattern before
generating, the provider-API savings-plan path assigns only "High" or
"Medium", and the heuristic fallback assigns only "Medium". -/
theorem claim_C8_no_low_confidence (lookback : ℕ)
    (analysis : Option (List (List (String × String × ℚ))
      × List (List (String × String × ℚ))))
    (api : Option (List (ℚ × ℚ × ℚ))) :
    (∀ rec ∈ (getRIRecommendations lookback analysis).recommendations,
        rec.confidence ≠ "Low")
    ∧ ∀ rec ∈ (getSavingsPlanRecommendations lookback api analysis).1,
        rec.confidence ≠ "Low" := by
  constructor
  · intro rec hrec
    rcases analysis with _ | ⟨e, r⟩
    · simp [getRIRecommendations] at hrec
    · simp only [getRIRecommendations] at hrec
      rcases List.mem_append.mp hrec with h | h
      · obtain ⟨pat, _, hl, _, rfl⟩ := mem_generateEC2RIRecs h
        simpa [mkEC2RIRec] using hl
      · obtain ⟨pat, _, hl, _, rfl⟩ := mem_generateRDSRIRecs h
        simpa [mkRDSRIRec] using hl
  · intro rec hrec
    rcases api with _ | details
    · rcases analysis with _ | ⟨e, r⟩
      · simp [getSavingsPlanRecommendations,
          generateEstimatedSavingsPlans] at hrec
      · simp only [getSavingsPlanRecommendations,
          generateEstimatedSavingsPlans] at hrec
        split at hrec
        · simp only [List.mem_singleton] at hrec
          subst hrec
          exact fun hcon =>
            absurd (show ("Medium" : String) = "Low" from hcon) (by decide)
        · simp at hrec
    · simp only [getSavingsPlanRecommendations, processSPApiDetails]
        at hrec
      obtain ⟨d, _, rfl⟩ := List.mem_map.mp hrec
      intro hcon
      have h2 : (if d.2.2 > (90 : ℚ) then ("High" : String) else "Medium")
          = "Low" := hcon
      by_cases hu : d.2.2 > (90 : ℚ)
      · rw [if_pos hu] at h2
        exact absurd h2 (by decide)
      · rw [if_neg hu] at h2
        exact absurd h2 (by decide)

/-- C8, witness: the steady one-day m5.large usage produces a High
confidence RI recommendation, and the API savings-plan detail with 95%
utilization produces a High-confidence plan; neither is "Low". -/
theorem claim_C8_witness :
    (mkEC2RIRec steadyPattern).confidence ≠ "Low"
    ∧ spRecEx.confidence ≠ "Low" :=
  ⟨(claim_C8_no_low_confidence 1 (some (steadyUsage, []))
      (some spApiDetails)).1 (mkEC2RIRec steadyPattern)
      (by
        simp only [getRIRecommendations]
        refine List.mem_append.mpr (Or.inl ?_)
        have hx : extractConsistentUsage 1 svcEC2 steadyUsage
            = [steadyPattern] := by
          norm_num +decide [extractConsistentUsage, accumUsage, addUsage,
            steadyUsage, usageKey, mkUsagePattern, cvLt, steadyPattern,
            sortDescBy, insertDescBy, svcEC2, List.filterMap_cons,
            List.filterMap_nil]
        rw [hx]
        norm_num +decide [generateEC2RIRecs, steadyPattern,
          List.filterMap_cons, List.filterMap_nil]),
   (claim_C8_no_low_confidence 1 (some (steadyUsage, []))
      (some spApiDetails)).2 spRecEx
      (by norm_num +decide [getSavingsPlanRecommendations,
        processSPApiDetails, spApiDetails, spRecEx])⟩

/-- C10 (confirmed).  When usage-pattern analysis succeeds but every
candidate pattern is filtered out (Low confidence or a recommended
count below 1), `get_ri_recommendations` returns the empty
recommendation list with estimated savings 0 and batch confidence
"High" (the all-quantifier over an empty list); the overall confidence
is "Low" exactly when the usage-pattern analysis itself failed. -/
theorem claim_C10_empty_batch (lookback : ℕ)
    (ec2Usage rdsUsage : List (List (String × String × ℚ)))
    (hfil : ∀ pat,
      pat ∈ extractConsistentUsage lookback svcEC2 ec2Usage
        ∨ pat ∈ extractConsistentUsage lookback svcRDS rdsUsage →
      pat.confidence = "Low" ∨ ⌊pat.avgDailyUsage / 24⌋ < 1) :
    getRIRecommendations lookback (some (ec2Usage, rdsUsage))
      = { recommendations := []
          estimatedSavings := 0
          confidence := "High" }
    ∧ ∀ analysis,
        (getRIRecommendations lookback analysis).confidence = "Low"
          ↔ analysis = none := by
  constructor
  · have he : generateEC2RIRecs
        (extractConsistentUsage lookback svcEC2 ec2Usage) = [] := by
      rw [generateEC2RIRecs, List.filterMap_eq_nil_iff]
      intro pat hp
      rcases hfil pat (Or.inl hp) with h | h
      · rw [if_pos h]
      · by_cases hc : pat.confidence = "Low"
        · rw [if_pos hc]
        · rw [if_neg hc, if_pos h]
    have hr : generateRDSRIRecs
        (extractConsistentUsage lookback svcRDS rdsUsage) = [] := by
      rw [generateRDSRIRecs, List.filterMap_eq_nil_iff]
      intro pat hp
      rcases hfil pat (Or.inr hp) with h | h
      · rw [if_pos h]
      · by_cases hc : pat.confidence = "Low"
        · rw [if_pos hc]
        · rw [if_neg hc, if_pos h]
    simp [getRIRecommendations, he, hr]
  · intro analysis
    rcases analysis with _ | ⟨e, r⟩
    · simp [getRIRecommendations]
    · simp only [getRIRecommendations]
      constructor
      · intro hconf
        exfalso
        by_cases hall : (generateEC2RIRecs
              (extractConsistentUsage lookback svcEC2 e)
            ++ generateRDSRIRecs
              (extractConsistentUsage lookback svcRDS r)).all
            (fun rec => decide (rec.confidence = "High")) = true
        · rw [if_pos hall] at hconf
          exact absurd hconf (by decide)
        · rw [if_neg hall] at hconf
          by_cases hany : (generateEC2RIRecs
                (extractConsistentUsage lookback svcEC2 e)
              ++ generateRDSRIRecs
                (extractConsistentUsage lookback svcRDS r)).any
              (fun rec => decide (rec.confidence = "Medium")) = true
          · rw [if_pos hany] at hconf
            exact absurd hconf (by decide)
          · rw [List.all_eq_true] at hall
            push_neg at hall
            obtain ⟨rec, hrec, hnH⟩ := hall
            rcases mem_riRecs_conf hrec with hH | hM
            · exact hnH (decide_eq_true hH)
            · exact hany (List.any_eq_true.mpr
                ⟨rec, hrec, decide_eq_true hM⟩)
      · intro hcon
        exact absurd hcon (by simp)

/-- C10, witness: one day of 5 t2.nano-hours yields one High-confidence
pattern whose recommended count floors to 0, so everything is filtered
and the result is the empty list, zero savings, confidence "High". -/
theorem claim_C10_witness :
    getRIRecommendations 1 (some (tinyUsage, []))
      = { recommendations := []
          estimatedSavings := 0
          confidence := "High" } :=
  (claim_C10_empty_batch 1 tinyUsage []
    (by
      intro pat hp
      rcases hp with hp | hp
      · right
        norm_num +decide [extractConsistentUsage, accumUsage, addUsage,
          tinyUsage, usageKey, mkUsagePattern, cvLt, sortDescBy,
          insertDescBy, svcEC2, List.filterMap_cons,
          List.filterMap_nil] at hp
        rw [hp]
        norm_num
      · simp [extractConsistentUsage, accumUsage, sortDescBy] at hp)).1

end AwsFinops

